import Mathlib

/-!
# Verification of the OTLP payload validation engine (otel-validator)

Shallow embedding of `src/lib/validation` (orchestrator, payload
detector, structural JSON-Schema layer compiled by Ajv, and the three
semantic checkers) together with proofs of the specification claims.

JSON documents are modelled by the inductive `Json`; JavaScript numbers
are modelled as exact rationals (every JSON numeral denotes a rational,
and all comparisons performed by the source on such values are exact on
the rationals involved).  JavaScript exceptions (property access on
`null`, calling a method of a non-object) are modelled with
`Except String`; `BigInt` conversion failures that the source catches
locally are modelled with `Option`.
-/

set_option maxHeartbeats 1000000

namespace OtelValidator

/-- A JSON value (the result of `JSON.parse`).  Object fields are kept in
document order; `JSON.parse` never produces duplicate keys (later wins),
and none of the definitions below depend on fields past the first
occurrence of a key. -/
inductive Json where
  | null : Json
  | bool (b : Bool) : Json
  | num (q : ℚ) : Json
  | str (s : String) : Json
  | arr (elems : List Json) : Json
  | obj (fields : List (String × Json)) : Json

namespace Json

/-- Field lookup in an object's field list. -/
def lookupField : List (String × Json) → String → Option Json
  | [], _ => none
  | (k, v) :: rest, key => if k = key then some v else lookupField rest key

/-- JavaScript property read `x[k]` for non-null `x`, returning `none` for
`undefined`.  Strings and arrays expose `length`; other primitives have no
own properties that the validator reads. -/
def getProp (j : Json) (k : String) : Option Json :=
  match j with
  | .obj fields => lookupField fields k
  | .str s => if k = "length" then some (.num s.length) else none
  | .arr xs => if k = "length" then some (.num xs.length) else none
  | _ => none

/-- JavaScript property read `x[k]` which throws a `TypeError` when `x` is
`null` (the only way the validators can throw on a JSON input). -/
def jsGet (j : Json) (k : String) : Except String (Option Json) :=
  match j with
  | .null => .error ("TypeError: Cannot read properties of null (reading " ++ k ++ ")")
  | _ => .ok (getProp j k)

/-- JavaScript truthiness of a JSON value. -/
def truthy : Json → Bool
  | .null => false
  | .bool b => b
  | .num q => q ≠ 0
  | .str s => s ≠ ""
  | .arr _ => true
  | .obj _ => true

/-- `Array.isArray`. -/
def isArray : Json → Bool
  | .arr _ => true
  | _ => false

end Json

/-! ## Decimal rendering of array indices

The source builds error paths with template interpolation of array
indices (`${rsIdx}`); JavaScript renders these numbers in decimal. -/

/-- Decimal digit character for `d < 10`. -/
def digitChar (d : ℕ) : Char := Char.ofNat (48 + d)

/-- Decimal rendering of a natural number, as JavaScript renders array
indices in template strings. -/
def decStr (n : ℕ) : String :=
  if _h : n < 10 then String.mk [digitChar n]
  else decStr (n / 10) ++ String.mk [digitChar (n % 10)]
  decreasing_by exact Nat.div_lt_self (by omega) (by omega)

/-- Decimal rendering of an integer. -/
def decStrInt (i : ℤ) : String :=
  (if i < 0 then "-" else "") ++ decStr i.natAbs

/-- Fractional decimal digits of a rational in `[0, 1)`: the exact finite
expansion (every JSON-literal number has one; the fuel bound covers every
value a double can carry). -/
def fracDigits : ℕ → ℚ → String
  | 0, _ => ""
  | fuel + 1, r =>
    if r = 0 then ""
    else
      let r10 := r * 10
      let d : ℤ := ⌊r10⌋
      String.mk [digitChar d.toNat] ++ fracDigits fuel (r10 - (d : ℚ))

/-- JavaScript `Number`-to-string conversion on the exact rational carried
by a JSON numeral: sign, integer part, and the exact fractional expansion.
(JavaScript switches to exponent notation for extreme magnitudes; nothing
the validator reports depends on that regime.) -/
def numStr (q : ℚ) : String :=
  (if q < 0 then "-" else "") ++
    decStr ⌊|q|⌋.toNat ++
    (if |q| - ⌊|q|⌋ = 0 then "" else "." ++ fracDigits 1200 (|q| - ⌊|q|⌋))

/-! ## JavaScript string conversion of values (`ToString`)

Used by `Array.prototype.join` (which `BigInt`/`ToNumber` of an array go
through) and by template interpolation in error messages. -/

mutual

/-- JavaScript `ToString` of a JSON value. -/
def jsToStr : Json → String
  | .null => "null"
  | .bool b => if b then "true" else "false"
  | .num q => numStr q
  | .str s => s
  | .obj _ => "[object Object]"
  | .arr xs => jsJoinList xs

/-- `Array.prototype.join(",")` (the default `toString` of an array);
`null` elements render as the empty string. -/
def jsJoinList : List Json → String
  | [] => ""
  | [.null] => ""
  | [x] => jsToStr x
  | .null :: rest => "," ++ jsJoinList rest
  | x :: rest => jsToStr x ++ "," ++ jsJoinList rest

end

/-! ## `BigInt` conversion (`StringToBigInt`) -/

/-- Value of a digit character in the given radix. -/
def radixDigitVal (radix : ℕ) (c : Char) : Option ℕ :=
  let v : Option ℕ :=
    if '0' ≤ c ∧ c ≤ '9' then some (c.toNat - 48)
    else if 'a' ≤ c ∧ c ≤ 'f' then some (c.toNat - 97 + 10)
    else if 'A' ≤ c ∧ c ≤ 'F' then some (c.toNat - 65 + 10)
    else none
  match v with
  | some d => if d < radix then some d else none
  | none => none

/-- Parse a nonempty run of digits in the given radix. -/
def parseRadixDigits (radix : ℕ) (cs : List Char) : Option ℕ :=
  match cs with
  | [] => none
  | _ => go 0 cs
where
  go (acc : ℕ) : List Char → Option ℕ
    | [] => some acc
    | c :: rest =>
      match radixDigitVal radix c with
      | some d => go (acc * radix + d) rest
      | none => none

/-- The whitespace characters stripped by JavaScript before parsing a
numeric string (ASCII whitespace plus NBSP, BOM, and the line/paragraph
separators). -/
def isJsSpace (c : Char) : Bool :=
  c = ' ' || c = '\t' || c = '\n' || c = '\r' || c = '\x0b' || c = '\x0c' ||
  c = '\u00A0' || c = '\uFEFF' || c = '\u2028' || c = '\u2029'

/-- Strip leading and trailing JavaScript whitespace from a string. -/
def jsTrim (s : String) : List Char :=
  ((s.data.dropWhile isJsSpace).reverse.dropWhile isJsSpace).reverse

/-- JavaScript `StringToBigInt`: trimmed, empty means zero, `0x`/`0o`/`0b`
radix prefixes (no sign allowed), otherwise optionally signed decimal
digits; anything else fails (a thrown `SyntaxError`, caught by the
callers). -/
def strToBigInt (s : String) : Option ℤ :=
  match jsTrim s with
  | [] => some 0
  | '0' :: c :: rest =>
    if c = 'x' ∨ c = 'X' then (parseRadixDigits 16 rest).map (Int.ofNat)
    else if c = 'o' ∨ c = 'O' then (parseRadixDigits 8 rest).map (Int.ofNat)
    else if c = 'b' ∨ c = 'B' then (parseRadixDigits 2 rest).map (Int.ofNat)
    else (parseRadixDigits 10 ('0' :: c :: rest)).map (Int.ofNat)
  | '-' :: rest => (parseRadixDigits 10 rest).map (fun n => -(n : ℤ))
  | '+' :: rest => (parseRadixDigits 10 rest).map (Int.ofNat)
  | cs => (parseRadixDigits 10 cs).map (Int.ofNat)

/-- JavaScript `BigInt(x)` with conversion failures (thrown errors) as
`none`; on objects and arrays, `ToPrimitive` falls back to `toString`. -/
def jsBigInt : Json → Option ℤ
  | .num q => if q.den = 1 then some q.num else none
  | .bool b => some (if b then 1 else 0)
  | .str s => strToBigInt s
  | .null => none
  | .arr xs => strToBigInt (jsJoinList xs)
  | .obj _ => strToBigInt "[object Object]"

/-! ## `ToNumber` and the relational operators -/

/-- A JavaScript number as produced by `ToNumber`: `NaN`, infinities, or a
finite value (modelled as an exact rational). -/
inductive NumV where
  | nan : NumV
  | posInf : NumV
  | negInf : NumV
  | val (q : ℚ) : NumV

/-- Parse an unsigned `StrDecimalLiteral` (digits, optional fraction,
optional exponent). -/
def parseDecimalLit (cs : List Char) : Option ℚ :=
  let (ip, rest1) := cs.span Char.isDigit
  let withMantissa : Option (ℚ × List Char) :=
    match rest1 with
    | '.' :: rest2 =>
      let (fp, rest3) := rest2.span Char.isDigit
      if ip = [] ∧ fp = [] then none
      else
        match parseRadixDigits 10 (if (ip ++ fp) = [] then ['0'] else ip ++ fp) with
        | some m => some (((m : ℚ) / (10 : ℚ) ^ fp.length), rest3)
        | none => none
    | _ =>
      if ip = [] then none
      else
        match parseRadixDigits 10 ip with
        | some m => some ((m : ℚ), rest1)
        | none => none
  match withMantissa with
  | none => none
  | some (m, rest) =>
    match rest with
    | [] => some m
    | e :: rest2 =>
      if e = 'e' ∨ e = 'E' then
        let (sgn, ds) : (ℤ → ℤ) × List Char :=
          match rest2 with
          | '-' :: ds => (fun z => -z, ds)
          | '+' :: ds => (fun z => z, ds)
          | ds => (fun z => z, ds)
        match parseRadixDigits 10 ds with
        | some ex => some (m * (10 : ℚ) ^ (sgn (ex : ℤ)))
        | none => none
      else none

/-- JavaScript `ToNumber` on a string (`StringNumericLiteral`): trimmed,
empty means zero, `Infinity` forms, radix prefixes, signed decimal
literal; anything else is `NaN`. -/
def strToNum (s : String) : NumV :=
  match jsTrim s with
  | [] => .val 0
  | cs =>
    if cs = "Infinity".data ∨ cs = "+Infinity".data then .posInf
    else if cs = "-Infinity".data then .negInf
    else
      match cs with
      | '0' :: c :: rest =>
        if c = 'x' ∨ c = 'X' then
          match parseRadixDigits 16 rest with
          | some n => .val n
          | none => .nan
        else if c = 'o' ∨ c = 'O' then
          match parseRadixDigits 8 rest with
          | some n => .val n
          | none => .nan
        else if c = 'b' ∨ c = 'B' then
          match parseRadixDigits 2 rest with
          | some n => .val n
          | none => .nan
        else
          match parseDecimalLit ('0' :: c :: rest) with
          | some q => .val q
          | none => .nan
      | '-' :: rest =>
        match parseDecimalLit rest with
        | some q => .val (-q)
        | none => .nan
      | '+' :: rest =>
        match parseDecimalLit rest with
        | some q => .val q
        | none => .nan
      | _ =>
        match parseDecimalLit cs with
        | some q => .val q
        | none => .nan

/-- JavaScript `ToNumber` of a JSON value. -/
def toNum : Json → NumV
  | .null => .val 0
  | .bool b => .val (if b then 1 else 0)
  | .num q => .val q
  | .str s => strToNum s
  | .arr xs => strToNum (jsJoinList xs)
  | .obj _ => .nan

/-- `≤` on JavaScript numbers; any comparison with `NaN` is false. -/
def numVLe : NumV → NumV → Bool
  | .nan, _ => false
  | _, .nan => false
  | .negInf, _ => true
  | _, .posInf => true
  | .posInf, _ => false
  | _, .negInf => false
  | .val a, .val b => a ≤ b

/-- JavaScript `a <= b`: strings compare lexicographically, otherwise both
sides go through `ToNumber`. -/
def jsLe (a b : Json) : Bool :=
  match a, b with
  | .str x, .str y => decide (x ≤ y)
  | _, _ => numVLe (toNum a) (toNum b)

/-- JavaScript strict equality `===` between JSON values.  Objects and
arrays compare by reference; the two operands of every `===` in the
validator are never the same heap object, so those cases are `false`. -/
def jsStrictEq : Json → Json → Bool
  | .null, .null => true
  | .bool a, .bool b => a = b
  | .num a, .num b => a = b
  | .str a, .str b => a = b
  | _, _ => false

/-! ## Validation result types (`src/lib/validation/types.ts`) -/

/-- `OTLPPayloadType`. -/
inductive OTLPPayloadType where
  | traces : OTLPPayloadType
  | logs : OTLPPayloadType
  | metrics : OTLPPayloadType
  deriving DecidableEq

/-- `ValidationError`. -/
structure VError where
  path : String
  message : String
  keyword : String
  schemaPath : String
  deriving DecidableEq

/-- `ValidationWarning`. -/
structure VWarning where
  path : String
  message : String
  suggestion : Option String
  deriving DecidableEq

/-- `SemanticValidationResult`. -/
structure SemResult where
  errors : List VError
  warnings : List VWarning
  deriving DecidableEq

/-- `ValidationResult`; `warnings` is optional in the source and omitted
when the semantic layer produced none. -/
structure ValidationResult where
  valid : Bool
  payloadType : Option OTLPPayloadType
  errors : List VError
  warnings : Option (List VWarning)
  deriving DecidableEq

/-- The pair of lists a `forEach` body contributes (pushed errors and
warnings, in push order). -/
abbrev Contribution := List VError × List VWarning

/-- `forEach` over an array with indices starting at `n`: contributions
are concatenated in traversal order; a thrown exception aborts the whole
traversal. -/
def exForIdx (f : ℕ → Json → Except String Contribution) : ℕ → List Json → Except String Contribution
  | _, [] => .ok ([], [])
  | n, x :: rest =>
    match f n x with
    | .error e => .error e
    | .ok (es, ws) =>
      match exForIdx f (n + 1) rest with
      | .error e => .error e
      | .ok (es', ws') => .ok (es ++ es', ws ++ ws')

/-- Truthiness of a possibly-`undefined` value. -/
def optTruthy : Option Json → Bool
  | none => false
  | some v => v.truthy

/-- The all-zero traceId. -/
def zeros32 : String := "00000000000000000000000000000000"

/-- The all-zero spanId. -/
def zeros16 : String := "0000000000000000"

/-! ## Semantic validation of traces (`semantic/traces.ts`) -/

/-- Base error path of the span at the given indices. -/
def traceBase (a b c : ℕ) : String :=
  "/resourceSpans/" ++ decStr a ++ "/scopeSpans/" ++ decStr b ++ "/spans/" ++ decStr c

/-- The per-event body of the `span.events.forEach` loop; `st`/`et` are
the span's `startTimeUnixNano`/`endTimeUnixNano` fields. -/
def eventCheck (basePath : String) (st et : Option Json) (i : ℕ) (ev : Json) :
    Except String Contribution := do
  let tv ← ev.jsGet "timeUnixNano"
  match tv, st, et with
  | some t, some s, some e =>
    match jsBigInt t, jsBigInt s, jsBigInt e with
    | some eventTime, some startTime, some endTime =>
      .ok ([],
        if eventTime < startTime ∨ eventTime > endTime then
          [⟨basePath ++ "/events/" ++ decStr i ++ "/timeUnixNano",
            "Event timestamp is outside span time bounds",
            some "Event should occur between span start and end times"⟩]
        else [])
    | _, _, _ => .ok ([], [])
  | _, _, _ => .ok ([], [])

/-- The per-link body of the `span.links.forEach` loop. -/
def linkCheck (basePath : String) (i : ℕ) (lk : Json) : Except String Contribution := do
  let ltid ← lk.jsGet "traceId"
  let e1 : List VError :=
    match ltid with
    | some v =>
      if jsStrictEq v (.str zeros32) then
        [⟨basePath ++ "/links/" ++ decStr i ++ "/traceId",
          "Link traceId must not be all zeros", "semantic",
          "#/$defs/link/properties/traceId"⟩]
      else []
    | none => []
  let lsid ← lk.jsGet "spanId"
  let e2 : List VError :=
    match lsid with
    | some v =>
      if jsStrictEq v (.str zeros16) then
        [⟨basePath ++ "/links/" ++ decStr i ++ "/spanId",
          "Link spanId must not be all zeros", "semantic",
          "#/$defs/link/properties/spanId"⟩]
      else []
    | none => []
  .ok (e1 ++ e2, [])

/-- The all-zero `traceId` check block of the per-span body, applied to
the read `span.traceId`. -/
def spanTidErrs (basePath : String) (tid : Option Json) : List VError :=
  match tid with
  | some v =>
    if v.truthy && jsStrictEq v (.str zeros32) then
      [⟨basePath ++ "/traceId", "traceId must not be all zeros", "semantic",
        "#/$defs/span/properties/traceId"⟩]
    else []
  | none => []

/-- The all-zero `spanId` check block of the per-span body. -/
def spanSidErrs (basePath : String) (sid : Option Json) : List VError :=
  match sid with
  | some v =>
    if v.truthy && jsStrictEq v (.str zeros16) then
      [⟨basePath ++ "/spanId", "spanId must not be all zeros", "semantic",
        "#/$defs/span/properties/spanId"⟩]
    else []
  | none => []

/-- The inner body of the span timestamp block, applied to the two
`BigInt` conversion results (the `catch` arm yields the empty
contribution). -/
def spanTimeCore (now : ℤ) (basePath : String) : Option ℤ → Option ℤ → Contribution
  | some startTime, some endTime =>
    ((if endTime < startTime then
        [⟨basePath ++ "/endTimeUnixNano",
          "endTimeUnixNano must be greater than or equal to startTimeUnixNano",
          "semantic", "#/$defs/span/properties/endTimeUnixNano"⟩]
      else []),
     (if startTime > now * 1000000 + 60000000000 then
        [⟨basePath ++ "/startTimeUnixNano",
          "startTimeUnixNano is significantly in the future, possible clock skew",
          some "Verify timestamp is in nanoseconds since Unix epoch"⟩]
      else []))
  | _, _ => ([], [])

/-- The timestamp-ordering and clock-skew block of the per-span body,
applied to the read `startTimeUnixNano`/`endTimeUnixNano`. -/
def spanTimePart (now : ℤ) (basePath : String) (st et : Option Json) : Contribution :=
  match st, et with
  | some sv, some ev => spanTimeCore now basePath (jsBigInt sv) (jsBigInt ev)
  | _, _ => ([], [])

/-- The per-span body of `validateTraceSemantics`; `now` is `Date.now()`
in milliseconds. -/
def spanCheck (now : ℤ) (basePath : String) (span : Json) : Except String Contribution := do
  let tid ← span.jsGet "traceId"
  let tidErrs : List VError := spanTidErrs basePath tid
  let sid ← span.jsGet "spanId"
  let sidErrs : List VError := spanSidErrs basePath sid
  let st ← span.jsGet "startTimeUnixNano"
  let et ← span.jsGet "endTimeUnixNano"
  let timePart : Contribution := spanTimePart now basePath st et
  let evs ← span.jsGet "events"
  let eventsPart : Except String Contribution :=
    match evs with
    | some (Json.arr xs) => exForIdx (eventCheck basePath st et) 0 xs
    | _ => .ok ([], [])
  let eventsRes ← eventsPart
  let lks ← span.jsGet "links"
  let linksPart : Except String Contribution :=
    match lks with
    | some (Json.arr xs) => exForIdx (linkCheck basePath) 0 xs
    | _ => .ok ([], [])
  let linksRes ← linksPart
  .ok (tidErrs ++ sidErrs ++ timePart.1 ++ eventsRes.1 ++ linksRes.1,
       timePart.2 ++ eventsRes.2 ++ linksRes.2)

/-- One iteration of the `spans.forEach` loop at indices `(a, b, c)`. -/
def spanAt (now : ℤ) (a b : ℕ) (c : ℕ) (span : Json) : Except String Contribution :=
  spanCheck now (traceBase a b c) span

/-- The per-`scopeSpans` body of `validateTraceSemantics`. -/
def scopeSpansCheck (now : ℤ) (a b : ℕ) (ss : Json) : Except String Contribution := do
  let sp ← ss.jsGet "spans"
  match sp with
  | some (Json.arr xs) => exForIdx (spanAt now a b) 0 xs
  | _ => .ok ([], [])

/-- The per-`resourceSpans` body of `validateTraceSemantics`. -/
def resourceSpansCheck (now : ℤ) (a : ℕ) (rs : Json) : Except String Contribution := do
  let sv ← rs.jsGet "scopeSpans"
  match sv with
  | some (Json.arr xs) => exForIdx (scopeSpansCheck now a) 0 xs
  | _ => .ok ([], [])

/-- `validateTraceSemantics`. -/
def validateTraceSemantics (now : ℤ) (payload : Json) : Except String SemResult := do
  let rv ← payload.jsGet "resourceSpans"
  match rv with
  | some (Json.arr xs) => do
    let (es, ws) ← exForIdx (resourceSpansCheck now) 0 xs
    .ok ⟨es, ws⟩
  | _ => .ok ⟨[], []⟩

/-! ## Semantic validation of logs (`semantic/logs.ts`) -/

/-- The canonical severity band name for `severityNumber` band `n`
(`SEVERITY_BASE_NAMES`). -/
def severityBandName (n : ℕ) : String :=
  if n = 0 then "UNSPECIFIED"
  else if n ≤ 4 then "TRACE"
  else if n ≤ 8 then "DEBUG"
  else if n ≤ 12 then "INFO"
  else if n ≤ 16 then "WARN"
  else if n ≤ 20 then "ERROR"
  else "FATAL"

/-- `SEVERITY_BASE_NAMES[log.severityNumber]`: the record has the string
keys `"0"`‥`"24"`, and JavaScript coerces the lookup key to a string, so
the lookup succeeds exactly when the value renders as one of those keys. -/
def severityLookup (v : Json) : Option String :=
  (List.range 25).findSome? fun (n : ℕ) =>
    if jsToStr v = decStr n then some (severityBandName n) else none

/-- Base error path of the log record at the given indices. -/
def logBase (a b c : ℕ) : String :=
  "/resourceLogs/" ++ decStr a ++ "/scopeLogs/" ++ decStr b ++ "/logRecords/" ++ decStr c

/-- The per-record body of `validateLogSemantics`. -/
def logRecordCheck (basePath : String) (log : Json) : Except String Contribution := do
  let tid ← log.jsGet "traceId"
  let tidErrs : List VError :=
    match tid with
    | some v =>
      if v.truthy && !jsStrictEq v (.str "") && jsStrictEq v (.str zeros32) then
        [⟨basePath ++ "/traceId", "traceId must not be all zeros when present",
          "semantic", "#/$defs/logRecord/properties/traceId"⟩]
      else []
    | none => []
  let sid ← log.jsGet "spanId"
  let sidErrs : List VError :=
    match sid with
    | some v =>
      if v.truthy && !jsStrictEq v (.str "") && jsStrictEq v (.str zeros16) then
        [⟨basePath ++ "/spanId", "spanId must not be all zeros when present",
          "semantic", "#/$defs/logRecord/properties/spanId"⟩]
      else []
    | none => []
  let tv ← log.jsGet "timeUnixNano"
  let ov ← log.jsGet "observedTimeUnixNano"
  let obsWarns : List VWarning :=
    match tv, ov with
    | some t, some o =>
      match jsBigInt t, jsBigInt o with
      | some time, some observedTime =>
        if observedTime < time then
          [⟨basePath ++ "/observedTimeUnixNano",
            "observedTimeUnixNano is earlier than timeUnixNano",
            some "observedTimeUnixNano should typically be >= timeUnixNano"⟩]
        else []
      | _, _ => []
    | _, _ => []
  let sevn ← log.jsGet "severityNumber"
  let sevt ← log.jsGet "severityText"
  let sevPart : Except String (List VWarning) :=
    match sevn, sevt with
    | some n, some t =>
      if t.truthy then
        match severityLookup n with
        | some expectedBaseName =>
          match t with
          | .str s =>
            let upper := s.toUpper
            .ok (if !upper.startsWith expectedBaseName && upper ≠ expectedBaseName then
              [⟨basePath ++ "/severityText",
                "severityText \"" ++ s ++ "\" may not match severityNumber " ++ jsToStr n,
                some ("Expected severity text to be \"" ++ expectedBaseName ++ "\" or similar")⟩]
            else [])
          | _ => .error "TypeError: log.severityText.toUpperCase is not a function"
        | none => .ok []
      else .ok []
    | _, _ => .ok []
  let sevWarns ← sevPart
  let body ← log.jsGet "body"
  let bodyWarns : List VWarning :=
    if body.isNone && sevn.isNone then
      [⟨basePath, "Log record has neither body nor severityNumber",
        some "Consider adding a body or severity for meaningful logs"⟩]
    else []
  .ok (tidErrs ++ sidErrs, obsWarns ++ sevWarns ++ bodyWarns)

/-- One iteration of the `logRecords.forEach` loop at indices `(a, b, c)`. -/
def logRecordAt (a b : ℕ) (c : ℕ) (log : Json) : Except String Contribution :=
  logRecordCheck (logBase a b c) log

/-- The per-`scopeLogs` body of `validateLogSemantics`. -/
def scopeLogsCheck (a b : ℕ) (sl : Json) : Except String Contribution := do
  let lv ← sl.jsGet "logRecords"
  match lv with
  | some (Json.arr xs) => exForIdx (logRecordAt a b) 0 xs
  | _ => .ok ([], [])

/-- The per-`resourceLogs` body of `validateLogSemantics`. -/
def resourceLogsCheck (a : ℕ) (rl : Json) : Except String Contribution := do
  let sv ← rl.jsGet "scopeLogs"
  match sv with
  | some (Json.arr xs) => exForIdx (scopeLogsCheck a) 0 xs
  | _ => .ok ([], [])

/-- `validateLogSemantics`. -/
def validateLogSemantics (payload : Json) : Except String SemResult := do
  let rv ← payload.jsGet "resourceLogs"
  match rv with
  | some (Json.arr xs) => do
    let (es, ws) ← exForIdx resourceLogsCheck 0 xs
    .ok ⟨es, ws⟩
  | _ => .ok ⟨[], []⟩

/-! ## Semantic validation of metrics (`semantic/metrics.ts`) -/

/-- `METRIC_DATA_TYPES`. -/
def METRIC_DATA_TYPES : List String :=
  ["gauge", "sum", "histogram", "exponentialHistogram", "summary"]

/-- A JavaScript primitive value, as produced by the `+ 1` in the
bucket-count error check (`NaN` when the length is `undefined`). -/
inductive JsPrim where
  | numP (q : ℚ) : JsPrim
  | nanP : JsPrim
  | strP (s : String) : JsPrim

/-- `x + 1` where `x` is a possibly-`undefined` length value: numbers add,
strings concatenate, `undefined` gives `NaN`. -/
def lenPlusOne : Option Json → JsPrim
  | none => .nanP
  | some (.num q) => .numP (q + 1)
  | some (.str s) => .strP (s ++ "1")
  | some (.bool b) => .numP (if b then 2 else 1)
  | some .null => .numP 1
  | some (.arr xs) => .strP (jsJoinList xs ++ "1")
  | some (.obj _) => .strP "[object Object]1"

/-- Strict inequality `a !== b` between a possibly-`undefined` length and
the computed `length + 1`: only number/number and string/string pairs can
be strictly equal, and `NaN` is unequal to everything. -/
def lenNeq (l : Option Json) (r : JsPrim) : Bool :=
  match l, r with
  | some (.num a), .numP b => decide (a ≠ b)
  | some (.str a), .strP b => decide (a ≠ b)
  | _, _ => true

/-- Template interpolation of a possibly-`undefined` value. -/
def jsDisplayOpt : Option Json → String
  | none => "undefined"
  | some v => jsToStr v

/-- Template interpolation of a computed primitive. -/
def jsDisplayPrim : JsPrim → String
  | .numP q => numStr q
  | .nanP => "NaN"
  | .strP s => s

/-- First index `i ≥ 1` (with the values at `i` and `i-1`) at which the
`explicitBounds` loop finds `bounds[i] <= bounds[i-1]`; the loop stops at
the first violation. -/
def monoFirst : ℕ → Json → List Json → Option (ℕ × Json × Json)
  | _, _, [] => none
  | i, prev, y :: rest => if jsLe y prev then some (i, y, prev) else monoFirst (i + 1) y rest

/-- Base error path of the metric at the given indices. -/
def metricBase (a b c : ℕ) : String :=
  "/resourceMetrics/" ++ decStr a ++ "/scopeMetrics/" ++ decStr b ++ "/metrics/" ++ decStr c

/-- The per-exemplar body of the `dp.exemplars.forEach` loop. -/
def exemplarCheck (dpPath : String) (i : ℕ) (ex : Json) : Except String Contribution := do
  let etid ← ex.jsGet "traceId"
  let w1 : List VWarning :=
    match etid with
    | some v =>
      if jsStrictEq v (.str zeros32) then
        [⟨dpPath ++ "/exemplars/" ++ decStr i ++ "/traceId",
          "Exemplar traceId is all zeros",
          some "Consider omitting traceId if no trace context exists"⟩]
      else []
    | none => []
  let esid ← ex.jsGet "spanId"
  let w2 : List VWarning :=
    match esid with
    | some v =>
      if jsStrictEq v (.str zeros16) then
        [⟨dpPath ++ "/exemplars/" ++ decStr i ++ "/spanId",
          "Exemplar spanId is all zeros",
          some "Consider omitting spanId if no trace context exists"⟩]
      else []
    | none => []
  .ok ([], w1 ++ w2)

/-- The timestamp-ordering block of the per-data-point body. -/
def dpTimeErrs (dpPath : String) (st tv : Option Json) : List VError :=
  match st, tv with
  | some s, some t =>
    match jsBigInt s, jsBigInt t with
    | some start, some e =>
      if e < start then
        [⟨dpPath ++ "/timeUnixNano", "timeUnixNano must be >= startTimeUnixNano",
          "semantic", "#/properties/timeUnixNano"⟩]
      else []
    | _, _ => []
  | _, _ => []

/-- The histogram bucket-count block of the per-data-point body, applied
to the read `bucketCounts`/`explicitBounds`. -/
def histBucketErrs (dpPath : String) (bc eb : Option Json) : List VError :=
  match bc, eb with
  | some bcv, some ebv =>
    if bcv.truthy && ebv.truthy then
      let bcLen := bcv.getProp "length"
      let rhs := lenPlusOne (ebv.getProp "length")
      if lenNeq bcLen rhs then
        [⟨dpPath ++ "/bucketCounts",
          "bucketCounts length (" ++ jsDisplayOpt bcLen ++
            ") must be explicitBounds length + 1 (" ++ jsDisplayPrim rhs ++ ")",
          "semantic", "#/$defs/histogramDataPoint/properties/bucketCounts"⟩]
      else []
    else []
  | _, _ => []

/-- The histogram strictly-increasing-bounds block of the per-data-point
body (first violation only). -/
def histMonoErrs (dpPath : String) (eb : Option Json) : List VError :=
  match eb with
  | some (Json.arr ys) =>
    match ys with
    | [] => []
    | y0 :: rest =>
      match monoFirst 1 y0 rest with
      | some (i, yi, yprev) =>
        [⟨dpPath ++ "/explicitBounds/" ++ decStr i,
          "explicitBounds must be strictly increasing (" ++ jsToStr yi ++ " <= " ++
            jsToStr yprev ++ ")",
          "semantic", "#/$defs/histogramDataPoint/properties/explicitBounds"⟩]
      | none => []
  | _ => []

/-- The per-data-point body of `validateMetricSemantics`; `dataType` is
`presentDataTypes[0]` (possibly `undefined`). -/
def dataPointCheck (dataType : Option String) (dpPath : String) (dp : Json) :
    Except String Contribution := do
  let st ← dp.jsGet "startTimeUnixNano"
  let tv ← dp.jsGet "timeUnixNano"
  let timeErrs : List VError := dpTimeErrs dpPath st tv
  let histPart : Except String (List VError) :=
    if dataType = some "histogram" then do
      let bc ← dp.jsGet "bucketCounts"
      let eb ← dp.jsGet "explicitBounds"
      .ok (histBucketErrs dpPath bc eb ++ histMonoErrs dpPath eb)
    else .ok []
  let histErrs ← histPart
  let exv ← dp.jsGet "exemplars"
  let exPart : Except String Contribution :=
    match exv with
    | some (Json.arr xs) => exForIdx (exemplarCheck dpPath) 0 xs
    | _ => .ok ([], [])
  let exRes ← exPart
  .ok (timeErrs ++ histErrs ++ exRes.1, exRes.2)

/-- One iteration of the `dataPoints.forEach` loop. -/
def dataPointAt (dataType : Option String) (dtName basePath : String) (di : ℕ) (dp : Json) :
    Except String Contribution :=
  dataPointCheck dataType (basePath ++ "/" ++ dtName ++ "/dataPoints/" ++ decStr di) dp

/-- The exactly-one-data-type block of the per-metric body. -/
def metricCardErrs (basePath : String) (presentDataTypes : List String) : List VError :=
  if presentDataTypes.length = 0 then
    [⟨basePath,
      "Metric must have exactly one data type (gauge, sum, histogram, exponentialHistogram, or summary)",
      "semantic", "#/$defs/metric"⟩]
  else if presentDataTypes.length > 1 then
    [⟨basePath,
      "Metric has multiple data types: " ++ String.intercalate ", " presentDataTypes ++
        ". Only one is allowed.",
      "semantic", "#/$defs/metric"⟩]
  else []

/-- The monotonic-sum-with-DELTA block of the per-metric body. -/
def metricSumWarns (basePath : String) (dataType : Option String) (metricData : Option Json) :
    List VWarning :=
  if dataType = some "sum" ∧ optTruthy metricData then
    match metricData with
    | some md =>
      let im := md.getProp "isMonotonic"
      let at' := md.getProp "aggregationTemporality"
      if (match im with | some v => jsStrictEq v (.bool true) | none => false) &&
         (match at' with | some v => jsStrictEq v (.num 1) | none => false) then
        [⟨basePath ++ "/sum", "Monotonic sum with DELTA aggregation temporality is uncommon",
          some "Verify this is intentional; CUMULATIVE is more common for monotonic sums"⟩]
      else []
    | none => []
  else []

/-- The per-metric body of `validateMetricSemantics`. -/
def metricCheck (basePath : String) (metric : Json) : Except String Contribution := do
  let g ← metric.jsGet "gauge"
  let s ← metric.jsGet "sum"
  let h ← metric.jsGet "histogram"
  let eh ← metric.jsGet "exponentialHistogram"
  let su ← metric.jsGet "summary"
  let presentDataTypes : List String :=
    (if g.isSome then ["gauge"] else []) ++
    (if s.isSome then ["sum"] else []) ++
    (if h.isSome then ["histogram"] else []) ++
    (if eh.isSome then ["exponentialHistogram"] else []) ++
    (if su.isSome then ["summary"] else [])
  let cardErrs : List VError := metricCardErrs basePath presentDataTypes
  let dataType : Option String := presentDataTypes.head?
  -- `metric[dataType]` with `dataType === undefined` reads the property
  -- named "undefined"; `metric` is non-null here (its fields were read
  -- above), so this cannot throw.
  let metricData : Option Json :=
    match dataType with
    | some dt => metric.getProp dt
    | none => metric.getProp "undefined"
  -- `metricData?.dataPoints` (optional chaining)
  let dpv : Option Json :=
    match metricData with
    | some .null => none
    | some md => md.getProp "dataPoints"
    | none => none
  let dtName : String :=
    match dataType with
    | some dt => dt
    | none => "undefined"
  let dpPart : Except String Contribution :=
    match dpv with
    | some (Json.arr xs) => exForIdx (dataPointAt dataType dtName basePath) 0 xs
    | _ => .ok ([], [])
  let dpRes ← dpPart
  let sumWarns : List VWarning := metricSumWarns basePath dataType metricData
  .ok (cardErrs ++ dpRes.1, dpRes.2 ++ sumWarns)

/-- One iteration of the `metrics.forEach` loop at indices `(a, b, c)`. -/
def metricAt (a b : ℕ) (c : ℕ) (metric : Json) : Except String Contribution :=
  metricCheck (metricBase a b c) metric

/-- The per-`scopeMetrics` body of `validateMetricSemantics`. -/
def scopeMetricsCheck (a b : ℕ) (sm : Json) : Except String Contribution := do
  let mv ← sm.jsGet "metrics"
  match mv with
  | some (Json.arr xs) => exForIdx (metricAt a b) 0 xs
  | _ => .ok ([], [])

/-- The per-`resourceMetrics` body of `validateMetricSemantics`. -/
def resourceMetricsCheck (a : ℕ) (rm : Json) : Except String Contribution := do
  let sv ← rm.jsGet "scopeMetrics"
  match sv with
  | some (Json.arr xs) => exForIdx (scopeMetricsCheck a) 0 xs
  | _ => .ok ([], [])

/-- `validateMetricSemantics`. -/
def validateMetricSemantics (payload : Json) : Except String SemResult := do
  let rv ← payload.jsGet "resourceMetrics"
  match rv with
  | some (Json.arr xs) => do
    let (es, ws) ← exForIdx resourceMetricsCheck 0 xs
    .ok ⟨es, ws⟩
  | _ => .ok ⟨[], []⟩

/-! ## Structural layer (`ajv.compile` of the JSON Schemas)

The orchestrator compiles the three JSON-Schema documents
(`schema/traces.ts`, `schema/logs.ts`, `schema/metrics.ts` plus
`schema/common.ts`) once with Ajv (`allErrors: true`).  We hand-compile
each schema definition to a checker, exactly as Ajv's code generator
does: `type` first, then the type-independent `enum`, the numeric
`minimum`/`maximum` on numbers, `pattern` on strings, `required` and
then `properties` (in schema declaration order) on objects, `items` on
arrays.  Unknown fields are ignored (no `additionalProperties`
anywhere). -/

/-- An error object produced by an Ajv validator. -/
structure AjvError where
  instancePath : String
  message : String
  keyword : String
  schemaPath : String
  deriving DecidableEq

theorem Json.sizeOf_lookupField {fields : List (String × Json)} {k : String} {v : Json}
    (h : Json.lookupField fields k = some v) : sizeOf v < sizeOf (Json.obj fields) := by
  induction fields with
  | nil => simp [Json.lookupField] at h
  | cons hd tl ih =>
    obtain ⟨k', v'⟩ := hd
    by_cases hk : k' = k
    · simp [Json.lookupField, hk] at h
      subst h
      simp
      omega
    · simp [Json.lookupField, hk] at h
      have := ih h
      simp at this ⊢
      omega

theorem Json.sizeOf_mem_arr {x : Json} {xs : List Json} (h : x ∈ xs) :
    sizeOf x < sizeOf (Json.arr xs) := by
  have := List.sizeOf_lt_of_mem h
  simp
  omega

/-- `sizeOf` of a list element, for termination through indexed loops. -/
theorem List.sizeOf_head_lt {x : Json} {xs : List Json} :
    sizeOf x < sizeOf (x :: xs) ∧ sizeOf xs < sizeOf (x :: xs) := by
  simp
  omega

def isIntJ : Json → Bool
  | .num q => q.den = 1
  | _ => false

def isStrIntJ : Json → Bool
  | .num q => q.den = 1
  | .str _ => true
  | _ => false

/-- Ajv `type` error. -/
def ajvType (ip ty sp : String) : AjvError :=
  ⟨ip, "must be " ++ ty, "type", sp⟩

/-- Ajv leaf check: `{ type: 'string' }`. -/
def ckString (sp ip : String) (j : Json) : List AjvError :=
  match j with
  | .str _ => []
  | _ => [ajvType ip "string" (sp ++ "/type")]

/-- Ajv leaf check: `{ type: 'boolean' }`. -/
def ckBoolean (sp ip : String) (j : Json) : List AjvError :=
  match j with
  | .bool _ => []
  | _ => [ajvType ip "boolean" (sp ++ "/type")]

/-- Ajv leaf check: `{ type: 'number' }`. -/
def ckNumber (sp ip : String) (j : Json) : List AjvError :=
  match j with
  | .num _ => []
  | _ => [ajvType ip "number" (sp ++ "/type")]

/-- Ajv leaf check: `{ type: 'integer' }`. -/
def ckInteger (sp ip : String) (j : Json) : List AjvError :=
  if isIntJ j then [] else [ajvType ip "integer" (sp ++ "/type")]

/-- Ajv leaf check: `{ type: ['string', 'integer'] }` (64-bit fields). -/
def ckStrInt (sp ip : String) (j : Json) : List AjvError :=
  if isStrIntJ j then [] else [⟨ip, "must be string,integer", "type", sp ++ "/type"⟩]

/-- Ajv leaf check: `{ type: 'integer', minimum: 0 }`; `minimum` applies
only to numbers and is evaluated even when `type` failed. -/
def ckCount (sp ip : String) (j : Json) : List AjvError :=
  (if isIntJ j then [] else [ajvType ip "integer" (sp ++ "/type")]) ++
  (match j with
   | .num q => if q < 0 then [⟨ip, "must be >= 0", "minimum", sp ++ "/minimum"⟩] else []
   | _ => [])

/-- Ajv leaf check: `{ type: 'integer', enum: [...] }`; `enum` is
type-independent. -/
def ckIntEnum (vals : List ℚ) (sp ip : String) (j : Json) : List AjvError :=
  (if isIntJ j then [] else [ajvType ip "integer" (sp ++ "/type")]) ++
  (if (match j with | .num q => decide (q ∈ vals) | _ => false) then []
   else [⟨ip, "must be equal to one of the allowed values", "enum", sp ++ "/enum"⟩])

/-- Ajv leaf check: `{ type: 'integer', minimum: 0, maximum: 24 }`
(`severityNumber`). -/
def ckSeverityNumber (sp ip : String) (j : Json) : List AjvError :=
  (if isIntJ j then [] else [ajvType ip "integer" (sp ++ "/type")]) ++
  (match j with
   | .num q =>
     (if q > 24 then [⟨ip, "must be <= 24", "maximum", sp ++ "/maximum"⟩] else []) ++
     (if q < 0 then [⟨ip, "must be >= 0", "minimum", sp ++ "/minimum"⟩] else [])
   | _ => [])

def isHexChar (c : Char) : Bool :=
  ('0' ≤ c && c ≤ '9') || ('a' ≤ c && c ≤ 'f') || ('A' ≤ c && c ≤ 'F')

/-- `^[a-fA-F0-9]{n}$`. -/
def isHexN (n : ℕ) (s : String) : Bool :=
  s.data.length = n && s.data.all isHexChar

/-- Ajv leaf check: `{ type: 'string', pattern: '^[a-fA-F0-9]{n}$' }`;
`pattern` applies only to strings. -/
def ckHexPattern (n : ℕ) (pat sp ip : String) (j : Json) : List AjvError :=
  match j with
  | .str s =>
    if isHexN n s then []
    else [⟨ip, "must match pattern \"" ++ pat ++ "\"", "pattern", sp ++ "/pattern"⟩]
  | _ => [ajvType ip "string" (sp ++ "/type")]

/-- Ajv leaf check for a 32-hex-char `traceId`. -/
def ckTraceId (sp ip : String) (j : Json) : List AjvError :=
  ckHexPattern 32 "^[a-fA-F0-9]{32}$" sp ip j

/-- Ajv leaf check for a 16-hex-char `spanId`. -/
def ckSpanId (sp ip : String) (j : Json) : List AjvError :=
  ckHexPattern 16 "^[a-fA-F0-9]{16}$" sp ip j

/-- Validate the property `name` of an object (present properties only). -/
def onProp (fields : List (String × Json)) (name ip : String)
    (f : String → Json → List AjvError) : List AjvError :=
  match Json.lookupField fields name with
  | some v => f (ip ++ "/" ++ name) v
  | none => []

/-- Indexed concatenation over array items. -/
def ckItemsList (f : ℕ → Json → List AjvError) : ℕ → List Json → List AjvError
  | _, [] => []
  | n, x :: rest => f n x ++ ckItemsList f (n + 1) rest

/-- Ajv check: `{ type: 'array', items: <f> }`. -/
def ckArrayOf (sp : String) (f : String → Json → List AjvError) (ip : String) (j : Json) :
    List AjvError :=
  match j with
  | .arr xs => ckItemsList (fun i x => f (ip ++ "/" ++ decStr i) x) 0 xs
  | _ => [ajvType ip "array" (sp ++ "/type")]

mutual

/-- Hand-compiled Ajv checker for `#/$defs/anyValue` (`anyValueDef` in
`schema/common.ts`): recursive through `arrayValue.values` and
`kvlistValue.values`. -/
def checkAnyValue (ip : String) (j : Json) : List AjvError :=
  match j with
  | .obj fields =>
    onProp fields "stringValue" ip (ckString "#/$defs/anyValue/properties/stringValue") ++
    onProp fields "boolValue" ip (ckBoolean "#/$defs/anyValue/properties/boolValue") ++
    onProp fields "intValue" ip (ckStrInt "#/$defs/anyValue/properties/intValue") ++
    onProp fields "doubleValue" ip (ckNumber "#/$defs/anyValue/properties/doubleValue") ++
    (match h1 : Json.lookupField fields "arrayValue" with
     | some av =>
       (match av with
        | .obj af =>
          (match h2 : Json.lookupField af "values" with
           | some vv =>
             (match vv with
              | .arr xs => checkAnyValueList (ip ++ "/arrayValue/values") 0 xs
              | _ => [ajvType (ip ++ "/arrayValue/values") "array"
                        "#/$defs/anyValue/properties/arrayValue/properties/values/type"])
           | none => [])
        | _ => [ajvType (ip ++ "/arrayValue") "object"
                  "#/$defs/anyValue/properties/arrayValue/type"])
     | none => []) ++
    (match h3 : Json.lookupField fields "kvlistValue" with
     | some kv =>
       (match kv with
        | .obj kf =>
          (match h4 : Json.lookupField kf "values" with
           | some vv =>
             (match vv with
              | .arr xs => checkKeyValueList (ip ++ "/kvlistValue/values") 0 xs
              | _ => [ajvType (ip ++ "/kvlistValue/values") "array"
                        "#/$defs/anyValue/properties/kvlistValue/properties/values/type"])
           | none => [])
        | _ => [ajvType (ip ++ "/kvlistValue") "object"
                  "#/$defs/anyValue/properties/kvlistValue/type"])
     | none => []) ++
    onProp fields "bytesValue" ip (ckString "#/$defs/anyValue/properties/bytesValue")
  | _ => [ajvType ip "object" "#/$defs/anyValue/type"]
termination_by sizeOf j
decreasing_by
  · have hv := Json.sizeOf_lookupField h1
    have hv2 := Json.sizeOf_lookupField h2
    simp at hv hv2 ⊢
    omega
  · have hv := Json.sizeOf_lookupField h3
    have hv2 := Json.sizeOf_lookupField h4
    simp at hv hv2 ⊢
    omega

/-- Items loop for arrays of `anyValue`. -/
def checkAnyValueList (ip : String) (n : ℕ) (xs : List Json) : List AjvError :=
  match xs with
  | [] => []
  | x :: rest =>
    checkAnyValue (ip ++ "/" ++ decStr n) x ++ checkAnyValueList ip (n + 1) rest
termination_by sizeOf xs
decreasing_by all_goals (simp <;> omega)

/-- Hand-compiled Ajv checker for `#/$defs/keyValue` (`keyValueDef`):
`required: ['key']`, properties `key` (string) and `value`
(`$ref anyValue`). -/
def checkKeyValue (ip : String) (j : Json) : List AjvError :=
  match j with
  | .obj fields =>
    (match Json.lookupField fields "key" with
     | some _ => []
     | none => [⟨ip, "must have required property \x27key\x27", "required",
                 "#/$defs/keyValue/required"⟩]) ++
    (match Json.lookupField fields "key" with
     | some v => ckString "#/$defs/keyValue/properties/key" (ip ++ "/key") v
     | none => []) ++
    (match h5 : Json.lookupField fields "value" with
     | some v => checkAnyValue (ip ++ "/value") v
     | none => [])
  | _ => [ajvType ip "object" "#/$defs/keyValue/type"]
termination_by sizeOf j
decreasing_by
  · have hv := Json.sizeOf_lookupField h5
    simp at hv ⊢
    omega

/-- Items loop for arrays of `keyValue`. -/
def checkKeyValueList (ip : String) (n : ℕ) (xs : List Json) : List AjvError :=
  match xs with
  | [] => []
  | x :: rest =>
    checkKeyValue (ip ++ "/" ++ decStr n) x ++ checkKeyValueList ip (n + 1) rest
termination_by sizeOf xs
decreasing_by all_goals (simp <;> omega)

end

/-! ### Common definitions (`schema/common.ts`) -/

/-- Ajv checker for `#/$defs/resource` (`resourceDef`). -/
def checkResource (ip : String) (j : Json) : List AjvError :=
  match j with
  | .obj fields =>
    onProp fields "attributes" ip
      (ckArrayOf "#/$defs/resource/properties/attributes" checkKeyValue) ++
    onProp fields "droppedAttributesCount" ip
      (ckCount "#/$defs/resource/properties/droppedAttributesCount")
  | _ => [ajvType ip "object" "#/$defs/resource/type"]

/-- Ajv checker for `#/$defs/instrumentationScope`
(`instrumentationScopeDef`). -/
def checkInstrumentationScope (ip : String) (j : Json) : List AjvError :=
  match j with
  | .obj fields =>
    onProp fields "name" ip (ckString "#/$defs/instrumentationScope/properties/name") ++
    onProp fields "version" ip (ckString "#/$defs/instrumentationScope/properties/version") ++
    onProp fields "attributes" ip
      (ckArrayOf "#/$defs/instrumentationScope/properties/attributes" checkKeyValue) ++
    onProp fields "droppedAttributesCount" ip
      (ckCount "#/$defs/instrumentationScope/properties/droppedAttributesCount")
  | _ => [ajvType ip "object" "#/$defs/instrumentationScope/type"]

/-! ### Traces schema (`schema/traces.ts`) -/

/-- Ajv checker for `#/$defs/status` (`statusDef`). -/
def checkStatus (ip : String) (j : Json) : List AjvError :=
  match j with
  | .obj fields =>
    onProp fields "message" ip (ckString "#/$defs/status/properties/message") ++
    onProp fields "code" ip (ckIntEnum [0, 1, 2] "#/$defs/status/properties/code")
  | _ => [ajvType ip "object" "#/$defs/status/type"]

/-- Ajv checker for `#/$defs/event` (`eventDef`). -/
def checkEvent (ip : String) (j : Json) : List AjvError :=
  match j with
  | .obj fields =>
    onProp fields "timeUnixNano" ip (ckStrInt "#/$defs/event/properties/timeUnixNano") ++
    onProp fields "name" ip (ckString "#/$defs/event/properties/name") ++
    onProp fields "attributes" ip
      (ckArrayOf "#/$defs/event/properties/attributes" checkKeyValue) ++
    onProp fields "droppedAttributesCount" ip
      (ckCount "#/$defs/event/properties/droppedAttributesCount")
  | _ => [ajvType ip "object" "#/$defs/event/type"]

/-- Ajv checker for `#/$defs/link` (`linkDef`). -/
def checkLink (ip : String) (j : Json) : List AjvError :=
  match j with
  | .obj fields =>
    onProp fields "traceId" ip (ckTraceId "#/$defs/link/properties/traceId") ++
    onProp fields "spanId" ip (ckSpanId "#/$defs/link/properties/spanId") ++
    onProp fields "traceState" ip (ckString "#/$defs/link/properties/traceState") ++
    onProp fields "attributes" ip
      (ckArrayOf "#/$defs/link/properties/attributes" checkKeyValue) ++
    onProp fields "droppedAttributesCount" ip
      (ckCount "#/$defs/link/properties/droppedAttributesCount") ++
    onProp fields "flags" ip (ckInteger "#/$defs/link/properties/flags")
  | _ => [ajvType ip "object" "#/$defs/link/type"]

/-- Ajv checker for `#/$defs/span` (`spanDef`). -/
def checkSpan (ip : String) (j : Json) : List AjvError :=
  match j with
  | .obj fields =>
    onProp fields "traceId" ip (ckTraceId "#/$defs/span/properties/traceId") ++
    onProp fields "spanId" ip (ckSpanId "#/$defs/span/properties/spanId") ++
    onProp fields "traceState" ip (ckString "#/$defs/span/properties/traceState") ++
    onProp fields "parentSpanId" ip (ckSpanId "#/$defs/span/properties/parentSpanId") ++
    onProp fields "name" ip (ckString "#/$defs/span/properties/name") ++
    onProp fields "kind" ip
      (ckIntEnum [0, 1, 2, 3, 4, 5] "#/$defs/span/properties/kind") ++
    onProp fields "startTimeUnixNano" ip
      (ckStrInt "#/$defs/span/properties/startTimeUnixNano") ++
    onProp fields "endTimeUnixNano" ip
      (ckStrInt "#/$defs/span/properties/endTimeUnixNano") ++
    onProp fields "attributes" ip
      (ckArrayOf "#/$defs/span/properties/attributes" checkKeyValue) ++
    onProp fields "droppedAttributesCount" ip
      (ckCount "#/$defs/span/properties/droppedAttributesCount") ++
    onProp fields "events" ip
      (ckArrayOf "#/$defs/span/properties/events" checkEvent) ++
    onProp fields "droppedEventsCount" ip
      (ckCount "#/$defs/span/properties/droppedEventsCount") ++
    onProp fields "links" ip
      (ckArrayOf "#/$defs/span/properties/links" checkLink) ++
    onProp fields "droppedLinksCount" ip
      (ckCount "#/$defs/span/properties/droppedLinksCount") ++
    onProp fields "status" ip (fun p v => checkStatus p v) ++
    onProp fields "flags" ip (ckInteger "#/$defs/span/properties/flags")
  | _ => [ajvType ip "object" "#/$defs/span/type"]

/-- Ajv checker for `#/$defs/scopeSpans` (`scopeSpansDef`). -/
def checkScopeSpans (ip : String) (j : Json) : List AjvError :=
  match j with
  | .obj fields =>
    onProp fields "scope" ip (fun p v => checkInstrumentationScope p v) ++
    onProp fields "spans" ip
      (ckArrayOf "#/$defs/scopeSpans/properties/spans" checkSpan) ++
    onProp fields "schemaUrl" ip (ckString "#/$defs/scopeSpans/properties/schemaUrl")
  | _ => [ajvType ip "object" "#/$defs/scopeSpans/type"]

/-- Ajv checker for `#/$defs/resourceSpans` (`resourceSpansDef`). -/
def checkResourceSpans (ip : String) (j : Json) : List AjvError :=
  match j with
  | .obj fields =>
    onProp fields "resource" ip (fun p v => checkResource p v) ++
    onProp fields "scopeSpans" ip
      (ckArrayOf "#/$defs/resourceSpans/properties/scopeSpans" checkScopeSpans) ++
    onProp fields "schemaUrl" ip (ckString "#/$defs/resourceSpans/properties/schemaUrl")
  | _ => [ajvType ip "object" "#/$defs/resourceSpans/type"]

/-- The compiled Ajv validator for `tracesSchema`. -/
def checkTracesSchema (j : Json) : List AjvError :=
  match j with
  | .obj fields =>
    onProp fields "resourceSpans" ""
      (ckArrayOf "#/properties/resourceSpans" checkResourceSpans)
  | _ => [ajvType "" "object" "#/type"]

/-! ### Logs schema (`schema/logs.ts`) -/

/-- Ajv checker for `#/$defs/logRecord` (`logRecordDef`). -/
def checkLogRecord (ip : String) (j : Json) : List AjvError :=
  match j with
  | .obj fields =>
    onProp fields "timeUnixNano" ip (ckStrInt "#/$defs/logRecord/properties/timeUnixNano") ++
    onProp fields "observedTimeUnixNano" ip
      (ckStrInt "#/$defs/logRecord/properties/observedTimeUnixNano") ++
    onProp fields "severityNumber" ip
      (ckSeverityNumber "#/$defs/logRecord/properties/severityNumber") ++
    onProp fields "severityText" ip (ckString "#/$defs/logRecord/properties/severityText") ++
    onProp fields "body" ip (fun p v => checkAnyValue p v) ++
    onProp fields "attributes" ip
      (ckArrayOf "#/$defs/logRecord/properties/attributes" checkKeyValue) ++
    onProp fields "droppedAttributesCount" ip
      (ckCount "#/$defs/logRecord/properties/droppedAttributesCount") ++
    onProp fields "flags" ip (ckInteger "#/$defs/logRecord/properties/flags") ++
    onProp fields "traceId" ip (ckTraceId "#/$defs/logRecord/properties/traceId") ++
    onProp fields "spanId" ip (ckSpanId "#/$defs/logRecord/properties/spanId")
  | _ => [ajvType ip "object" "#/$defs/logRecord/type"]

/-- Ajv checker for `#/$defs/scopeLogs` (`scopeLogsDef`). -/
def checkScopeLogs (ip : String) (j : Json) : List AjvError :=
  match j with
  | .obj fields =>
    onProp fields "scope" ip (fun p v => checkInstrumentationScope p v) ++
    onProp fields "logRecords" ip
      (ckArrayOf "#/$defs/scopeLogs/properties/logRecords" checkLogRecord) ++
    onProp fields "schemaUrl" ip (ckString "#/$defs/scopeLogs/properties/schemaUrl")
  | _ => [ajvType ip "object" "#/$defs/scopeLogs/type"]

/-- Ajv checker for `#/$defs/resourceLogs` (`resourceLogsDef`). -/
def checkResourceLogs (ip : String) (j : Json) : List AjvError :=
  match j with
  | .obj fields =>
    onProp fields "resource" ip (fun p v => checkResource p v) ++
    onProp fields "scopeLogs" ip
      (ckArrayOf "#/$defs/resourceLogs/properties/scopeLogs" checkScopeLogs) ++
    onProp fields "schemaUrl" ip (ckString "#/$defs/resourceLogs/properties/schemaUrl")
  | _ => [ajvType ip "object" "#/$defs/resourceLogs/type"]

/-- The compiled Ajv validator for `logsSchema`. -/
def checkLogsSchema (j : Json) : List AjvError :=
  match j with
  | .obj fields =>
    onProp fields "resourceLogs" ""
      (ckArrayOf "#/properties/resourceLogs" checkResourceLogs)
  | _ => [ajvType "" "object" "#/type"]

/-! ### Metrics schema (`schema/metrics.ts`) -/

/-- Ajv checker for `#/$defs/exemplar` (`exemplarDef`). -/
def checkExemplar (ip : String) (j : Json) : List AjvError :=
  match j with
  | .obj fields =>
    onProp fields "filteredAttributes" ip
      (ckArrayOf "#/$defs/exemplar/properties/filteredAttributes" checkKeyValue) ++
    onProp fields "timeUnixNano" ip (ckStrInt "#/$defs/exemplar/properties/timeUnixNano") ++
    onProp fields "asDouble" ip (ckNumber "#/$defs/exemplar/properties/asDouble") ++
    onProp fields "asInt" ip (ckStrInt "#/$defs/exemplar/properties/asInt") ++
    onProp fields "spanId" ip (ckSpanId "#/$defs/exemplar/properties/spanId") ++
    onProp fields "traceId" ip (ckTraceId "#/$defs/exemplar/properties/traceId")
  | _ => [ajvType ip "object" "#/$defs/exemplar/type"]

/-- Ajv checker for `#/$defs/numberDataPoint` (`numberDataPointDef`). -/
def checkNumberDataPoint (ip : String) (j : Json) : List AjvError :=
  match j with
  | .obj fields =>
    onProp fields "attributes" ip
      (ckArrayOf "#/$defs/numberDataPoint/properties/attributes" checkKeyValue) ++
    onProp fields "startTimeUnixNano" ip
      (ckStrInt "#/$defs/numberDataPoint/properties/startTimeUnixNano") ++
    onProp fields "timeUnixNano" ip
      (ckStrInt "#/$defs/numberDataPoint/properties/timeUnixNano") ++
    onProp fields "asDouble" ip (ckNumber "#/$defs/numberDataPoint/properties/asDouble") ++
    onProp fields "asInt" ip (ckStrInt "#/$defs/numberDataPoint/properties/asInt") ++
    onProp fields "exemplars" ip
      (ckArrayOf "#/$defs/numberDataPoint/properties/exemplars" checkExemplar) ++
    onProp fields "flags" ip (ckInteger "#/$defs/numberDataPoint/properties/flags")
  | _ => [ajvType ip "object" "#/$defs/numberDataPoint/type"]

/-- Ajv checker for `#/$defs/histogramDataPoint` (`histogramDataPointDef`). -/
def checkHistogramDataPoint (ip : String) (j : Json) : List AjvError :=
  match j with
  | .obj fields =>
    onProp fields "attributes" ip
      (ckArrayOf "#/$defs/histogramDataPoint/properties/attributes" checkKeyValue) ++
    onProp fields "startTimeUnixNano" ip
      (ckStrInt "#/$defs/histogramDataPoint/properties/startTimeUnixNano") ++
    onProp fields "timeUnixNano" ip
      (ckStrInt "#/$defs/histogramDataPoint/properties/timeUnixNano") ++
    onProp fields "count" ip (ckStrInt "#/$defs/histogramDataPoint/properties/count") ++
    onProp fields "sum" ip (ckNumber "#/$defs/histogramDataPoint/properties/sum") ++
    onProp fields "bucketCounts" ip
      (ckArrayOf "#/$defs/histogramDataPoint/properties/bucketCounts"
        (ckStrInt "#/$defs/histogramDataPoint/properties/bucketCounts/items")) ++
    onProp fields "explicitBounds" ip
      (ckArrayOf "#/$defs/histogramDataPoint/properties/explicitBounds"
        (ckNumber "#/$defs/histogramDataPoint/properties/explicitBounds/items")) ++
    onProp fields "exemplars" ip
      (ckArrayOf "#/$defs/histogramDataPoint/properties/exemplars" checkExemplar) ++
    onProp fields "flags" ip (ckInteger "#/$defs/histogramDataPoint/properties/flags") ++
    onProp fields "min" ip (ckNumber "#/$defs/histogramDataPoint/properties/min") ++
    onProp fields "max" ip (ckNumber "#/$defs/histogramDataPoint/properties/max")
  | _ => [ajvType ip "object" "#/$defs/histogramDataPoint/type"]

/-- Ajv checker for the inline `positive`/`negative` buckets object of an
exponential histogram data point. -/
def checkExpBuckets (sp : String) (ip : String) (j : Json) : List AjvError :=
  match j with
  | .obj fields =>
    onProp fields "offset" ip (ckInteger (sp ++ "/properties/offset")) ++
    onProp fields "bucketCounts" ip
      (ckArrayOf (sp ++ "/properties/bucketCounts")
        (ckStrInt (sp ++ "/properties/bucketCounts/items")))
  | _ => [ajvType ip "object" (sp ++ "/type")]

/-- Ajv checker for `#/$defs/exponentialHistogramDataPoint`
(`exponentialHistogramDataPointDef`). -/
def checkExpHistogramDataPoint (ip : String) (j : Json) : List AjvError :=
  match j with
  | .obj fields =>
    onProp fields "attributes" ip
      (ckArrayOf "#/$defs/exponentialHistogramDataPoint/properties/attributes" checkKeyValue) ++
    onProp fields "startTimeUnixNano" ip
      (ckStrInt "#/$defs/exponentialHistogramDataPoint/properties/startTimeUnixNano") ++
    onProp fields "timeUnixNano" ip
      (ckStrInt "#/$defs/exponentialHistogramDataPoint/properties/timeUnixNano") ++
    onProp fields "count" ip
      (ckStrInt "#/$defs/exponentialHistogramDataPoint/properties/count") ++
    onProp fields "sum" ip
      (ckNumber "#/$defs/exponentialHistogramDataPoint/properties/sum") ++
    onProp fields "scale" ip
      (ckInteger "#/$defs/exponentialHistogramDataPoint/properties/scale") ++
    onProp fields "zeroCount" ip
      (ckStrInt "#/$defs/exponentialHistogramDataPoint/properties/zeroCount") ++
    onProp fields "positive" ip
      (checkExpBuckets "#/$defs/exponentialHistogramDataPoint/properties/positive") ++
    onProp fields "negative" ip
      (checkExpBuckets "#/$defs/exponentialHistogramDataPoint/properties/negative") ++
    onProp fields "flags" ip
      (ckInteger "#/$defs/exponentialHistogramDataPoint/properties/flags") ++
    onProp fields "exemplars" ip
      (ckArrayOf "#/$defs/exponentialHistogramDataPoint/properties/exemplars" checkExemplar) ++
    onProp fields "min" ip
      (ckNumber "#/$defs/exponentialHistogramDataPoint/properties/min") ++
    onProp fields "max" ip
      (ckNumber "#/$defs/exponentialHistogramDataPoint/properties/max") ++
    onProp fields "zeroThreshold" ip
      (ckNumber "#/$defs/exponentialHistogramDataPoint/properties/zeroThreshold")
  | _ => [ajvType ip "object" "#/$defs/exponentialHistogramDataPoint/type"]

/-- Ajv checker for the inline items object of `quantileValues`. -/
def checkQuantileValue (ip : String) (j : Json) : List AjvError :=
  match j with
  | .obj fields =>
    onProp fields "quantile" ip
      (ckNumber "#/$defs/summaryDataPoint/properties/quantileValues/items/properties/quantile") ++
    onProp fields "value" ip
      (ckNumber "#/$defs/summaryDataPoint/properties/quantileValues/items/properties/value")
  | _ => [ajvType ip "object" "#/$defs/summaryDataPoint/properties/quantileValues/items/type"]

/-- Ajv checker for `#/$defs/summaryDataPoint` (`summaryDataPointDef`). -/
def checkSummaryDataPoint (ip : String) (j : Json) : List AjvError :=
  match j with
  | .obj fields =>
    onProp fields "attributes" ip
      (ckArrayOf "#/$defs/summaryDataPoint/properties/attributes" checkKeyValue) ++
    onProp fields "startTimeUnixNano" ip
      (ckStrInt "#/$defs/summaryDataPoint/properties/startTimeUnixNano") ++
    onProp fields "timeUnixNano" ip
      (ckStrInt "#/$defs/summaryDataPoint/properties/timeUnixNano") ++
    onProp fields "count" ip (ckStrInt "#/$defs/summaryDataPoint/properties/count") ++
    onProp fields "sum" ip (ckNumber "#/$defs/summaryDataPoint/properties/sum") ++
    onProp fields "quantileValues" ip
      (ckArrayOf "#/$defs/summaryDataPoint/properties/quantileValues" checkQuantileValue) ++
    onProp fields "flags" ip (ckInteger "#/$defs/summaryDataPoint/properties/flags")
  | _ => [ajvType ip "object" "#/$defs/summaryDataPoint/type"]

/-- Ajv checker for `#/$defs/gauge` (`gaugeDef`). -/
def checkGauge (ip : String) (j : Json) : List AjvError :=
  match j with
  | .obj fields =>
    onProp fields "dataPoints" ip
      (ckArrayOf "#/$defs/gauge/properties/dataPoints" checkNumberDataPoint)
  | _ => [ajvType ip "object" "#/$defs/gauge/type"]

/-- Ajv checker for `#/$defs/sum` (`sumDef`). -/
def checkSum (ip : String) (j : Json) : List AjvError :=
  match j with
  | .obj fields =>
    onProp fields "dataPoints" ip
      (ckArrayOf "#/$defs/sum/properties/dataPoints" checkNumberDataPoint) ++
    onProp fields "aggregationTemporality" ip
      (ckIntEnum [0, 1, 2] "#/$defs/sum/properties/aggregationTemporality") ++
    onProp fields "isMonotonic" ip (ckBoolean "#/$defs/sum/properties/isMonotonic")
  | _ => [ajvType ip "object" "#/$defs/sum/type"]

/-- Ajv checker for `#/$defs/histogram` (`histogramDef`). -/
def checkHistogram (ip : String) (j : Json) : List AjvError :=
  match j with
  | .obj fields =>
    onProp fields "dataPoints" ip
      (ckArrayOf "#/$defs/histogram/properties/dataPoints" checkHistogramDataPoint) ++
    onProp fields "aggregationTemporality" ip
      (ckIntEnum [0, 1, 2] "#/$defs/histogram/properties/aggregationTemporality")
  | _ => [ajvType ip "object" "#/$defs/histogram/type"]

/-- Ajv checker for `#/$defs/exponentialHistogram` (`exponentialHistogramDef`). -/
def checkExponentialHistogram (ip : String) (j : Json) : List AjvError :=
  match j with
  | .obj fields =>
    onProp fields "dataPoints" ip
      (ckArrayOf "#/$defs/exponentialHistogram/properties/dataPoints"
        checkExpHistogramDataPoint) ++
    onProp fields "aggregationTemporality" ip
      (ckIntEnum [0, 1, 2] "#/$defs/exponentialHistogram/properties/aggregationTemporality")
  | _ => [ajvType ip "object" "#/$defs/exponentialHistogram/type"]

/-- Ajv checker for `#/$defs/summary` (`summaryDef`). -/
def checkSummary (ip : String) (j : Json) : List AjvError :=
  match j with
  | .obj fields =>
    onProp fields "dataPoints" ip
      (ckArrayOf "#/$defs/summary/properties/dataPoints" checkSummaryDataPoint)
  | _ => [ajvType ip "object" "#/$defs/summary/type"]

/-- Ajv checker for `#/$defs/metric` (`metricDef`). -/
def checkMetric (ip : String) (j : Json) : List AjvError :=
  match j with
  | .obj fields =>
    onProp fields "name" ip (ckString "#/$defs/metric/properties/name") ++
    onProp fields "description" ip (ckString "#/$defs/metric/properties/description") ++
    onProp fields "unit" ip (ckString "#/$defs/metric/properties/unit") ++
    onProp fields "metadata" ip
      (ckArrayOf "#/$defs/metric/properties/metadata" checkKeyValue) ++
    onProp fields "gauge" ip (fun p v => checkGauge p v) ++
    onProp fields "sum" ip (fun p v => checkSum p v) ++
    onProp fields "histogram" ip (fun p v => checkHistogram p v) ++
    onProp fields "exponentialHistogram" ip (fun p v => checkExponentialHistogram p v) ++
    onProp fields "summary" ip (fun p v => checkSummary p v)
  | _ => [ajvType ip "object" "#/$defs/metric/type"]

/-- Ajv checker for `#/$defs/scopeMetrics` (`scopeMetricsDef`). -/
def checkScopeMetrics (ip : String) (j : Json) : List AjvError :=
  match j with
  | .obj fields =>
    onProp fields "scope" ip (fun p v => checkInstrumentationScope p v) ++
    onProp fields "metrics" ip
      (ckArrayOf "#/$defs/scopeMetrics/properties/metrics" checkMetric) ++
    onProp fields "schemaUrl" ip (ckString "#/$defs/scopeMetrics/properties/schemaUrl")
  | _ => [ajvType ip "object" "#/$defs/scopeMetrics/type"]

/-- Ajv checker for `#/$defs/resourceMetrics` (`resourceMetricsDef`). -/
def checkResourceMetrics (ip : String) (j : Json) : List AjvError :=
  match j with
  | .obj fields =>
    onProp fields "resource" ip (fun p v => checkResource p v) ++
    onProp fields "scopeMetrics" ip
      (ckArrayOf "#/$defs/resourceMetrics/properties/scopeMetrics" checkScopeMetrics) ++
    onProp fields "schemaUrl" ip (ckString "#/$defs/resourceMetrics/properties/schemaUrl")
  | _ => [ajvType ip "object" "#/$defs/resourceMetrics/type"]

/-- The compiled Ajv validator for `metricsSchema`. -/
def checkMetricsSchema (j : Json) : List AjvError :=
  match j with
  | .obj fields =>
    onProp fields "resourceMetrics" ""
      (ckArrayOf "#/properties/resourceMetrics" checkResourceMetrics)
  | _ => [ajvType "" "object" "#/type"]

/-! ## Payload detection (`payload-detector.ts`) -/

/-- `detectPayloadType`: inspects only the top level; non-objects (and
`null`) yield `none`.  The three keys are tried in order, each requiring
an array value. -/
def detectPayloadType (payload : Json) : Option OTLPPayloadType :=
  match payload with
  | .obj fields =>
    if (match Json.lookupField fields "resourceSpans" with
        | some v => v.isArray | none => false) then some .traces
    else if (match Json.lookupField fields "resourceLogs" with
        | some v => v.isArray | none => false) then some .logs
    else if (match Json.lookupField fields "resourceMetrics" with
        | some v => v.isArray | none => false) then some .metrics
    else none
  | _ => none

/-! ## Orchestrator (`validation/index.ts`) -/

/-- The compiled structural validator for each payload type
(`validators[payloadType]`); it returns the Ajv error list (empty when
the payload is structurally valid). -/
def schemaErrorsOf : OTLPPayloadType → Json → List AjvError
  | .traces => checkTracesSchema
  | .logs => checkLogsSchema
  | .metrics => checkMetricsSchema

/-- `semanticValidators[payloadType]`. -/
def runSemantic (now : ℤ) : OTLPPayloadType → Json → Except String SemResult
  | .traces => validateTraceSemantics now
  | .logs => validateLogSemantics
  | .metrics => validateMetricSemantics

/-- The orchestrator's mapping of an Ajv error object to a
`ValidationError`: `err.instancePath || '/'` and
`err.message || 'Validation error'`. -/
def toVError (e : AjvError) : VError :=
  ⟨if e.instancePath = "" then "/" else e.instancePath,
   if e.message = "" then "Validation error" else e.message,
   e.keyword, e.schemaPath⟩

/-- The single detection-failure error returned when no payload type is
recognized. -/
def detectionError : VError :=
  ⟨"",
   "Unable to detect payload type. Expected object with \"resourceSpans\", \"resourceLogs\", or \"resourceMetrics\" array",
   "type", "#"⟩

/-- `validateOTLPPayload`; `now` is `Date.now()` in milliseconds. -/
def validateOTLPPayload (now : ℤ) (payload : Json) : Except String ValidationResult :=
  match detectPayloadType payload with
  | none => .ok ⟨false, none, [detectionError], none⟩
  | some payloadType => do
    let schemaErrors := (schemaErrorsOf payloadType payload).map toVError
    let semanticResult ← runSemantic now payloadType payload
    let errors := schemaErrors ++ semanticResult.errors
    .ok ⟨errors.isEmpty, some payloadType, errors,
         if semanticResult.warnings.length > 0 then some semanticResult.warnings else none⟩

/-! ## Lemmas about decimal index strings and error paths -/

theorem digitChar_toNat {d : ℕ} (h : d < 10) : (digitChar d).toNat = 48 + d := by
  interval_cases d <;> decide

theorem decStr_digits (n : ℕ) : ∀ c ∈ (decStr n).data, 48 ≤ c.toNat ∧ c.toNat ≤ 57 := by
  induction n using Nat.strong_induction_on with
  | _ n ih =>
    rw [decStr]
    by_cases h : n < 10
    · simp [h]
      rw [digitChar_toNat h]
      omega
    · simp [h, String.data_append]
      intro c hc
      rcases hc with hc | hc
      · exact ih (n / 10) (Nat.div_lt_self (by omega) (by omega)) c hc
      · subst hc
        rw [digitChar_toNat (by omega)]
        omega

theorem decStr_no_slash {n : ℕ} {c : Char} (hc : c ∈ (decStr n).data) : c ≠ '/' := by
  have := decStr_digits n c hc
  intro h
  subst h
  simp at this

theorem decStr_ne_empty (n : ℕ) : (decStr n).data ≠ [] := by
  rw [decStr]
  by_cases h : n < 10 <;> simp [h, String.data_append]

/-- Value of a digit list, to invert `decStr`. -/
def parseDec (cs : List Char) : ℕ := cs.foldl (fun a c => a * 10 + (c.toNat - 48)) 0

theorem parseDec_decStr (n : ℕ) : parseDec (decStr n).data = n := by
  induction n using Nat.strong_induction_on with
  | _ n ih =>
    rw [decStr]
    by_cases h : n < 10
    · simp [h, parseDec, digitChar_toNat h]
    · simp only [h, if_false, dif_neg, String.data_append]
      have hrec := ih (n / 10) (Nat.div_lt_self (by omega) (by omega))
      simp [parseDec, List.foldl_append] at hrec ⊢
      rw [hrec, digitChar_toNat (by omega)]
      omega

theorem decStr_inj {m n : ℕ} (h : decStr m = decStr n) : m = n := by
  have hm := parseDec_decStr m
  rw [h, parseDec_decStr n] at hm
  exact hm.symm

/-- A string that is empty or starts with `'/'` (every suffix appended to
a base error path has this shape). -/
def SlashPrefix (s : String) : Prop := ∀ c, s.data.head? = some c → c = '/'

theorem slashPrefix_empty : SlashPrefix "" := by
  intro c h
  simp at h

theorem slashPrefix_of_head {s : String} {cs : List Char} (h : s.data = '/' :: cs) :
    SlashPrefix s := by
  intro c hc
  rw [h] at hc
  simp at hc
  exact hc.symm

/-- Peeling one slash-free segment off both sides of a path equality. -/
theorem seg_peel {s1 s2 r1 r2 : List Char}
    (hs1 : ∀ c ∈ s1, c ≠ '/') (hs2 : ∀ c ∈ s2, c ≠ '/')
    (hr1 : ∀ c, r1.head? = some c → c = '/') (hr2 : ∀ c, r2.head? = some c → c = '/')
    (h : s1 ++ r1 = s2 ++ r2) : s1 = s2 ∧ r1 = r2 := by
  induction s1 generalizing s2 with
  | nil =>
    cases s2 with
    | nil => simpa using h
    | cons b t =>
      simp at h
      have hb := hr1 b (by rw [h]; rfl)
      exact absurd hb (hs2 b (by simp))
  | cons a t ih =>
    cases s2 with
    | nil =>
      simp at h
      have ha := hr2 a (by rw [← h]; rfl)
      exact absurd ha (hs1 a (by simp))
    | cons b t2 =>
      simp at h
      obtain ⟨hab, h2⟩ := h
      obtain ⟨ht, hr⟩ := ih (fun c hc => hs1 c (by simp [hc])) (fun c hc => hs2 c (by simp [hc])) h2
      exact ⟨by rw [hab, ht], hr⟩

theorem head?_append_of_head {l r : List Char} {c : Char} (h : l.head? = some c) :
    (l ++ r).head? = some c := by
  cases l with
  | nil => simp at h
  | cons a t => simpa using h

/-- Equality of two three-index paths with slash-prefixed suffixes forces
the indices and the suffixes to agree.  `l1`,`l2`,`l3` are the literal
segments (`l2`, `l3` starting with `'/'`). -/
theorem idxPath3_peel {l1 l2 l3 : String}
    (hl2 : l2.data.head? = some '/') (hl3 : l3.data.head? = some '/')
    {a b c a' b' c' : ℕ} {s s' : String} (hs : SlashPrefix s) (hs' : SlashPrefix s')
    (h : l1 ++ decStr a ++ l2 ++ decStr b ++ l3 ++ decStr c ++ s =
         l1 ++ decStr a' ++ l2 ++ decStr b' ++ l3 ++ decStr c' ++ s') :
    a = a' ∧ b = b' ∧ c = c' ∧ s = s' := by
  have hd : l1.data ++ ((decStr a).data ++ (l2.data ++ ((decStr b).data ++
      (l3.data ++ ((decStr c).data ++ s.data))))) =
      l1.data ++ ((decStr a').data ++ (l2.data ++ ((decStr b').data ++
      (l3.data ++ ((decStr c').data ++ s'.data))))) := by
    have := congrArg String.data h
    simpa [String.data_append, List.append_assoc] using this
  have h1 := List.append_cancel_left hd
  obtain ⟨ha, h2⟩ := seg_peel (fun c hc => decStr_no_slash hc) (fun c hc => decStr_no_slash hc)
    (fun c hc => by
      rw [head?_append_of_head hl2] at hc
      exact (Option.some_inj.mp hc).symm)
    (fun c hc => by
      rw [head?_append_of_head hl2] at hc
      exact (Option.some_inj.mp hc).symm) h1
  have h3 := List.append_cancel_left h2
  obtain ⟨hb, h4⟩ := seg_peel (fun c hc => decStr_no_slash hc) (fun c hc => decStr_no_slash hc)
    (fun c hc => by
      rw [head?_append_of_head hl3] at hc
      exact (Option.some_inj.mp hc).symm)
    (fun c hc => by
      rw [head?_append_of_head hl3] at hc
      exact (Option.some_inj.mp hc).symm) h3
  have h5 := List.append_cancel_left h4
  obtain ⟨hc, h6⟩ := seg_peel (fun c hc => decStr_no_slash hc) (fun c hc => decStr_no_slash hc)
    (fun c hc => hs c hc) (fun c hc => hs' c hc) h5
  exact ⟨decStr_inj (String.ext ha), decStr_inj (String.ext hb), decStr_inj (String.ext hc),
    String.ext h6⟩

/-- Cancel a common prefix of two strings. -/
theorem string_append_cancel {s a b : String} (h : s ++ a = s ++ b) : a = b := by
  have hd := congrArg String.data h
  simp only [String.data_append] at hd
  exact String.ext (List.append_cancel_left hd)

/-! ## Counting and shape lemmas for the `forEach` traversals -/

/-- Number of errors matching `q` contributed by `f` at one element
(zero when `f` throws — the surrounding traversal then throws as well). -/
def errCount (f : ℕ → Json → Except String Contribution) (q : VError → Bool)
    (i : ℕ) (x : Json) : ℕ :=
  match f i x with
  | .ok r => r.1.countP q
  | .error _ => 0

/-- Number of warnings matching `q` contributed by `f` at one element. -/
def warnCount (f : ℕ → Json → Except String Contribution) (q : VWarning → Bool)
    (i : ℕ) (x : Json) : ℕ :=
  match f i x with
  | .ok r => r.2.countP q
  | .error _ => 0

theorem exForIdx_errors_countP {f : ℕ → Json → Except String Contribution}
    {xs : List Json} {r : Contribution} {q : VError → Bool} :
    ∀ {n : ℕ}, exForIdx f n xs = .ok r →
      r.1.countP q = ((List.enumFrom n xs).map (fun p => errCount f q p.1 p.2)).sum := by
  induction xs generalizing r with
  | nil =>
    intro n h
    simp [exForIdx] at h
    subst h
    simp
  | cons x rest ih =>
    intro n h
    rw [exForIdx] at h
    cases hf : f n x with
    | error e => rw [hf] at h; simp at h
    | ok c1 =>
      rw [hf] at h
      cases hrest : exForIdx f (n + 1) rest with
      | error e => rw [hrest] at h; simp at h
      | ok c2 =>
        rw [hrest] at h
        simp at h
        subst h
        simp [List.countP_append, List.enumFrom, errCount, hf, ih hrest]

theorem exForIdx_warnings_countP {f : ℕ → Json → Except String Contribution}
    {xs : List Json} {r : Contribution} {q : VWarning → Bool} :
    ∀ {n : ℕ}, exForIdx f n xs = .ok r →
      r.2.countP q = ((List.enumFrom n xs).map (fun p => warnCount f q p.1 p.2)).sum := by
  induction xs generalizing r with
  | nil =>
    intro n h
    simp [exForIdx] at h
    subst h
    simp
  | cons x rest ih =>
    intro n h
    rw [exForIdx] at h
    cases hf : f n x with
    | error e => rw [hf] at h; simp at h
    | ok c1 =>
      rw [hf] at h
      cases hrest : exForIdx f (n + 1) rest with
      | error e => rw [hrest] at h; simp at h
      | ok c2 =>
        rw [hrest] at h
        simp at h
        subst h
        simp [List.countP_append, List.enumFrom, warnCount, hf, ih hrest]

theorem mem_enumFrom_idx {xs : List Json} {p : ℕ × Json} :
    ∀ {n : ℕ}, p ∈ List.enumFrom n xs → ∃ k, xs[k]? = some p.2 ∧ p.1 = n + k := by
  induction xs with
  | nil => intro n hp; simp [List.enumFrom] at hp
  | cons b t iht =>
    intro n hp
    simp only [List.enumFrom, List.mem_cons] at hp
    rcases hp with hp | hp
    · subst hp
      exact ⟨0, by simp⟩
    · obtain ⟨k, hk1, hk2⟩ := iht hp
      exact ⟨k + 1, by simpa using hk1, by omega⟩

theorem enumFrom_map_sum_single {g : ℕ → Json → ℕ} {xs : List Json} {m : ℕ} {x : Json}
    (hm : xs[m]? = some x) :
    ∀ n, (∀ k y, xs[k]? = some y → k ≠ m → g (n + k) y = 0) →
      ((List.enumFrom n xs).map (fun p => g p.1 p.2)).sum = g (n + m) x := by
  induction xs generalizing m with
  | nil => simp at hm
  | cons a rest ih =>
    intro n hz
    cases m with
    | zero =>
      simp at hm
      subst hm
      simp [List.enumFrom]
      have hzero : (List.map (fun p => g p.1 p.2) (List.enumFrom (n + 1) rest)).sum = 0 := by
        apply List.sum_eq_zero
        intro v hv
        simp only [List.mem_map] at hv
        obtain ⟨p, hp, hv⟩ := hv
        obtain ⟨k, hk1, hk2⟩ := mem_enumFrom_idx hp
        rw [← hv, hk2]
        have := hz (k + 1) p.2 (by simpa using hk1) (by omega)
        convert this using 2
        omega
      omega
    | succ m' =>
      simp at hm
      simp only [List.enumFrom, List.map_cons, List.sum_cons]
      have h0 := hz 0 a (by simp) (by omega)
      simp only [Nat.add_zero] at h0
      have hrec := ih hm (n + 1) (fun k y hk hkm => by
        have := hz (k + 1) y (by simpa using hk) (by omega)
        convert this using 2
        omega)
      rw [h0, hrec, Nat.zero_add]
      congr 1
      omega

theorem enumFrom_map_sum_zero {g : ℕ → Json → ℕ} {xs : List Json} :
    ∀ n, (∀ k y, xs[k]? = some y → g (n + k) y = 0) →
      ((List.enumFrom n xs).map (fun p => g p.1 p.2)).sum = 0 := by
  induction xs with
  | nil => simp [List.enumFrom]
  | cons a rest ih =>
    intro n hz
    simp [List.enumFrom]
    constructor
    · simpa using hz 0 a (by simp)
    · exact ih (n + 1) (fun k y hk => by
        have := hz (k + 1) y (by simpa using hk)
        convert this using 2
        omega)

/-- Transfer a per-element property of contributions through a traversal. -/
theorem exForIdx_shape {f : ℕ → Json → Except String Contribution}
    {xs : List Json} {r : Contribution} (P : VError → Prop) (Q : VWarning → Prop)
    (hf : ∀ i x r', x ∈ xs → f i x = .ok r' → (∀ e ∈ r'.1, P e) ∧ (∀ w ∈ r'.2, Q w)) :
    ∀ {n : ℕ}, exForIdx f n xs = .ok r → (∀ e ∈ r.1, P e) ∧ (∀ w ∈ r.2, Q w) := by
  induction xs generalizing r with
  | nil =>
    intro n h
    simp [exForIdx] at h
    subst h
    simp
  | cons x rest ih =>
    intro n h
    rw [exForIdx] at h
    cases hfx : f n x with
    | error e => rw [hfx] at h; simp at h
    | ok c1 =>
      rw [hfx] at h
      cases hrest : exForIdx f (n + 1) rest with
      | error e => rw [hrest] at h; simp at h
      | ok c2 =>
        rw [hrest] at h
        simp at h
        subst h
        have h1 := hf n x c1 (by simp) hfx
        have h2 := ih (fun i y r' hy => hf i y r' (by simp [hy])) hrest
        constructor
        · intro e he
          rcases List.mem_append.mp he with he | he
          · exact h1.1 e he
          · exact h2.1 e he
        · intro w hw
          rcases List.mem_append.mp hw with hw | hw
          · exact h1.2 w hw
          · exact h2.2 w hw

/-- C1: For every input payload, the result of `validateOTLPPayload`
satisfies `valid = true` if and only if the errors list is empty;
warnings (however many are produced) never make `valid` false.  (`valid`
is computed from the errors list alone — `errors.length === 0` — so the
iff captures both halves.) -/
theorem claim_C1 (now : ℤ) (p : Json) (r : ValidationResult)
    (h : validateOTLPPayload now p = .ok r) : r.valid = true ↔ r.errors = [] := by
  unfold validateOTLPPayload at h
  cases hd : detectPayloadType p with
  | none =>
    rw [hd] at h
    simp at h
    subst h
    simp [detectionError]
  | some pt =>
    rw [hd] at h
    simp only [bind, Except.bind] at h
    cases hsem : runSemantic now pt p with
    | error e => rw [hsem] at h; simp at h
    | ok sem =>
      rw [hsem] at h
      simp at h
      subst h
      simp [List.isEmpty_iff]

/-- Witness for C1 at the concrete payload `{"resourceSpans": []}`. -/
theorem claim_C1_witness :
    validateOTLPPayload 0 (.obj [("resourceSpans", .arr [])]) =
      .ok ⟨true, some .traces, [], none⟩ ∧
    ((⟨true, some .traces, [], none⟩ : ValidationResult).valid = true ↔
      (⟨true, some .traces, [], none⟩ : ValidationResult).errors = []) :=
  ⟨rfl, claim_C1 0 (.obj [("resourceSpans", .arr [])]) ⟨true, some .traces, [], none⟩ rfl⟩

/-- C2: For every payload whose type is detected, `validateOTLPPayload`
runs the semantic checker for that type even when the structural schema
check produced errors (no hypothesis on the structural outcome appears
below), and the result's errors list is exactly the structural errors in
schema-report order followed by the semantic errors in traversal
order. -/
theorem claim_C2 (now : ℤ) (p : Json) (pt : OTLPPayloadType)
    (hd : detectPayloadType p = some pt) (r : ValidationResult)
    (h : validateOTLPPayload now p = .ok r) :
    ∃ sem, runSemantic now pt p = .ok sem ∧
      r.errors = (schemaErrorsOf pt p).map toVError ++ sem.errors := by
  unfold validateOTLPPayload at h
  rw [hd] at h
  simp only [bind, Except.bind] at h
  cases hsem : runSemantic now pt p with
  | error e => rw [hsem] at h; simp at h
  | ok sem =>
    rw [hsem] at h
    simp at h
    subst h
    exact ⟨sem, rfl, rfl⟩

/-- Witness for C2 at a payload with both a structural error (`kind`
is a string) and a semantic error (all-zero `traceId`). -/
theorem claim_C2_witness :
    ∃ sem, runSemantic 0 .traces
        (.obj [("resourceSpans", .arr [.obj [("scopeSpans", .arr [.obj [("spans", .arr
          [.obj [("kind", .str "SERVER"), ("traceId", .str zeros32)]])]])]])]) = .ok sem ∧
      (ValidationResult.errors ⟨false, some .traces,
        (schemaErrorsOf .traces (.obj [("resourceSpans", .arr [.obj [("scopeSpans", .arr
          [.obj [("spans", .arr [.obj [("kind", .str "SERVER"),
            ("traceId", .str zeros32)]])]])]])])).map toVError ++
          [⟨traceBase 0 0 0 ++ "/traceId", "traceId must not be all zeros", "semantic",
            "#/$defs/span/properties/traceId"⟩], none⟩) =
        (schemaErrorsOf .traces (.obj [("resourceSpans", .arr [.obj [("scopeSpans", .arr
          [.obj [("spans", .arr [.obj [("kind", .str "SERVER"),
            ("traceId", .str zeros32)]])]])]])])).map toVError ++ sem.errors :=
  claim_C2 0
    (.obj [("resourceSpans", .arr [.obj [("scopeSpans", .arr [.obj [("spans", .arr
      [.obj [("kind", .str "SERVER"), ("traceId", .str zeros32)]])]])]])])
    .traces rfl _ rfl

/-- C3: For every input that is not an object carrying an array-valued
`resourceSpans`, `resourceLogs`, or `resourceMetrics` field,
`validateOTLPPayload` returns `payloadType = null`, `valid = false`, and
exactly one error, whose path is the empty string; neither the
structural nor a semantic checker contributes anything to the result. -/
theorem claim_C3 (now : ℤ) (p : Json)
    (hnd : ∀ fields, p = Json.obj fields →
      ∀ k ∈ (["resourceSpans", "resourceLogs", "resourceMetrics"] : List String),
        ∀ xs, Json.lookupField fields k ≠ some (Json.arr xs)) :
    validateOTLPPayload now p = .ok ⟨false, none, [detectionError], none⟩ ∧
    detectionError.path = "" := by
  have hd : detectPayloadType p = none := by
    cases p with
    | obj fields =>
      have h1 := hnd fields rfl "resourceSpans" (by simp)
      have h2 := hnd fields rfl "resourceLogs" (by simp)
      have h3 := hnd fields rfl "resourceMetrics" (by simp)
      unfold detectPayloadType
      have e1 : (match Json.lookupField fields "resourceSpans" with
          | some v => v.isArray | none => false) = false := by
        cases hl : Json.lookupField fields "resourceSpans" with
        | none => rfl
        | some v =>
          cases v with
          | arr xs => exact absurd hl (h1 xs)
          | _ => rfl
      have e2 : (match Json.lookupField fields "resourceLogs" with
          | some v => v.isArray | none => false) = false := by
        cases hl : Json.lookupField fields "resourceLogs" with
        | none => rfl
        | some v =>
          cases v with
          | arr xs => exact absurd hl (h2 xs)
          | _ => rfl
      have e3 : (match Json.lookupField fields "resourceMetrics" with
          | some v => v.isArray | none => false) = false := by
        cases hl : Json.lookupField fields "resourceMetrics" with
        | none => rfl
        | some v =>
          cases v with
          | arr xs => exact absurd hl (h3 xs)
          | _ => rfl
      simp [e1, e2, e3]
    | null => rfl
    | bool b => rfl
    | num q => rfl
    | str s => rfl
    | arr xs => rfl
  unfold validateOTLPPayload
  rw [hd]
  exact ⟨rfl, rfl⟩

/-- Witness for C3 at `{"resourceSpans": 3}` (the field is present but
not an array). -/
theorem claim_C3_witness :
    validateOTLPPayload 0 (.obj [("resourceSpans", .num 3)]) =
      .ok ⟨false, none, [detectionError], none⟩ ∧
    detectionError.path = "" :=
  claim_C3 0 (.obj [("resourceSpans", .num 3)]) (by
    intro fields hf k hk xs hl
    cases hf
    fin_cases hk <;> simp [Json.lookupField] at hl)

/-! ## Safe inputs: characterizing when the engine cannot throw -/

/-- Whether a value is JavaScript `null`. -/
def Json.isNull : Json → Bool
  | .null => true
  | _ => false

theorem jsGet_ok {j : Json} (k : String) (h : j.isNull = false) :
    j.jsGet k = .ok (j.getProp k) := by
  cases j <;> simp [Json.isNull] at h ⊢ <;> rfl

theorem getProp_some_not_null {j : Json} {k : String} {v : Json}
    (h : j.getProp k = some v) : j.isNull = false := by
  cases j <;> simp [Json.getProp, Json.isNull] at h ⊢

theorem exceptBind_ok {ε α β : Type} (a : α) (f : α → Except ε β) :
    Except.bind (.ok a) f = f a := rfl

/-- The five data-type fields present on a metric, in the fixed order of
`METRIC_DATA_TYPES` (the value `presentDataTypes` computed by
`validateMetricSemantics` once the reads have succeeded). -/
def presentTypesOf (m : Json) : List String :=
  (if (m.getProp "gauge").isSome then ["gauge"] else []) ++
  (if (m.getProp "sum").isSome then ["sum"] else []) ++
  (if (m.getProp "histogram").isSome then ["histogram"] else []) ++
  (if (m.getProp "exponentialHistogram").isSome then ["exponentialHistogram"] else []) ++
  (if (m.getProp "summary").isSome then ["summary"] else [])

theorem bind_eq_ok {ε α β : Type} {x : Except ε α} {f : α → Except ε β} {b : β}
    (h : Except.bind x f = .ok b) : ∃ a, x = .ok a ∧ f a = .ok b := by
  cases x with
  | error e => simp [Except.bind] at h
  | ok a => exact ⟨a, rfl, h⟩

theorem exForIdx_ok_at {f : ℕ → Json → Except String Contribution} {xs : List Json}
    {r : Contribution} :
    ∀ {n : ℕ}, exForIdx f n xs = .ok r → ∀ {k : ℕ} {y : Json}, xs[k]? = some y →
      ∃ r', f (n + k) y = .ok r' := by
  induction xs generalizing r with
  | nil => intro n _ k y hk; simp at hk
  | cons x rest ih =>
    intro n h k y hk
    rw [exForIdx] at h
    cases hf : f n x with
    | error e => rw [hf] at h; simp at h
    | ok c1 =>
      rw [hf] at h
      cases hrest : exForIdx f (n + 1) rest with
      | error e => rw [hrest] at h; simp at h
      | ok c2 =>
        cases k with
        | zero =>
          simp at hk
          subst hk
          exact ⟨c1, by simpa using hf⟩
        | succ k' =>
          simp at hk
          have := ih hrest hk
          simpa [Nat.add_comm, Nat.add_assoc, Nat.add_left_comm] using this

theorem spanCheck_not_null {now : ℤ} {base : String} {span : Json} {r : Contribution}
    (hok : spanCheck now base span = .ok r) : span.isNull = false := by
  cases span <;> first
    | rfl
    | (unfold spanCheck at hok
       simp [bind, Json.jsGet, Except.bind] at hok)

theorem spanCheck_decomp {now : ℤ} {base : String} {span : Json} {r : Contribution}
    (hok : spanCheck now base span = .ok r) :
    ∃ evr lkr : Contribution,
      (match span.getProp "events" with
        | some (Json.arr xs) =>
          exForIdx (eventCheck base (span.getProp "startTimeUnixNano")
            (span.getProp "endTimeUnixNano")) 0 xs
        | _ => Except.ok ([], [])) = .ok evr ∧
      (match span.getProp "links" with
        | some (Json.arr xs) => exForIdx (linkCheck base) 0 xs
        | _ => Except.ok ([], [])) = .ok lkr ∧
      r.1 = spanTidErrs base (span.getProp "traceId") ++
             spanSidErrs base (span.getProp "spanId") ++
             (spanTimePart now base (span.getProp "startTimeUnixNano")
               (span.getProp "endTimeUnixNano")).1 ++ evr.1 ++ lkr.1 ∧
      r.2 = (spanTimePart now base (span.getProp "startTimeUnixNano")
               (span.getProp "endTimeUnixNano")).2 ++ evr.2 ++ lkr.2 := by
  have hnn := spanCheck_not_null hok
  unfold spanCheck at hok
  simp only [bind, jsGet_ok _ hnn, exceptBind_ok] at hok
  obtain ⟨evr, hev, hok2⟩ := bind_eq_ok hok
  obtain ⟨lkr, hlk, hok3⟩ := bind_eq_ok hok2
  injection hok3 with hok4
  exact ⟨evr, lkr, hev, hlk, (congrArg Prod.fst hok4).symm, (congrArg Prod.snd hok4).symm⟩

theorem mem_spanTidErrs {base : String} {tid : Option Json} {e : VError}
    (h : e ∈ spanTidErrs base tid) : e.path = base ++ "/traceId" := by
  unfold spanTidErrs at h
  split at h <;> simp at h
  rw [h.2]

theorem mem_spanSidErrs {base : String} {sid : Option Json} {e : VError}
    (h : e ∈ spanSidErrs base sid) : e.path = base ++ "/spanId" := by
  unfold spanSidErrs at h
  split at h <;> simp at h
  rw [h.2]

theorem mem_spanTimeCore_errs {now : ℤ} {base : String} {os oe : Option ℤ} {e : VError}
    (h : e ∈ (spanTimeCore now base os oe).1) : e.path = base ++ "/endTimeUnixNano" := by
  unfold spanTimeCore at h
  split at h
  · split at h <;> simp at h
    rw [h]
  · simp at h

theorem mem_spanTimeCore_warns {now : ℤ} {base : String} {os oe : Option ℤ} {w : VWarning}
    (h : w ∈ (spanTimeCore now base os oe).2) : w.path = base ++ "/startTimeUnixNano" := by
  unfold spanTimeCore at h
  split at h
  · split at h <;> simp at h <;> rw [h.2]
  · simp at h

theorem mem_spanTimeErrs {now : ℤ} {base : String} {st et : Option Json} {e : VError}
    (h : e ∈ (spanTimePart now base st et).1) : e.path = base ++ "/endTimeUnixNano" := by
  unfold spanTimePart at h
  split at h
  · exact mem_spanTimeCore_errs h
  · simp at h

theorem mem_spanTimeWarns {now : ℤ} {base : String} {st et : Option Json} {w : VWarning}
    (h : w ∈ (spanTimePart now base st et).2) : w.path = base ++ "/startTimeUnixNano" := by
  unfold spanTimePart at h
  split at h
  · exact mem_spanTimeCore_warns h
  · simp at h

theorem mem_opt_if_single {α : Type} {o : Option Json} {c : Json → Bool} {x e : α}
    (h : e ∈ (match o with
              | some v => if c v then [x] else []
              | none => ([] : List α))) : e = x := by
  match o with
  | none => simp at h
  | some v =>
    by_cases hc : c v <;> simp [hc] at h
    exact h

theorem eventCheck_shape {base : String} {st et : Option Json} {i : ℕ} {ev : Json}
    {r : Contribution} (hok : eventCheck base st et i ev = .ok r) :
    r.1 = [] ∧ ∀ w ∈ r.2, w.path = base ++ "/events/" ++ decStr i ++ "/timeUnixNano" := by
  unfold eventCheck at hok
  simp only [bind] at hok
  obtain ⟨tv, _, hok2⟩ := bind_eq_ok hok
  split at hok2 <;> try split at hok2
  all_goals (injection hok2 with h4; rw [← h4]; refine ⟨rfl, ?_⟩; intro w hw)
  all_goals (simp at hw; try rw [hw.2])

theorem linkCheck_shape {base : String} {i : ℕ} {lk : Json} {r : Contribution}
    (hok : linkCheck base i lk = .ok r) :
    r.2 = [] ∧ ∀ e ∈ r.1, e.path = base ++ "/links/" ++ decStr i ++ "/traceId" ∨
      e.path = base ++ "/links/" ++ decStr i ++ "/spanId" := by
  unfold linkCheck at hok
  simp only [bind] at hok
  obtain ⟨ltid, _, hok2⟩ := bind_eq_ok hok
  obtain ⟨lsid, _, hok3⟩ := bind_eq_ok hok2
  injection hok3 with h4
  rw [← h4]
  refine ⟨rfl, ?_⟩
  intro e he
  rcases List.mem_append.mp he with he | he
  · left
    rw [mem_opt_if_single he]
  · right
    rw [mem_opt_if_single he]

theorem slashPrefix_head {s : String} (h : s.data.head? = some '/') : SlashPrefix s :=
  fun c hc => by rw [h] at hc; exact (Option.some_inj.mp hc).symm

theorem spanCheck_shape {now : ℤ} {base : String} {span : Json} {r : Contribution}
    (hok : spanCheck now base span = .ok r) :
    (∀ e ∈ r.1, ∃ suf, SlashPrefix suf ∧ e.path = base ++ suf) ∧
    (∀ w ∈ r.2, ∃ suf, SlashPrefix suf ∧ w.path = base ++ suf) := by
  obtain ⟨evr, lkr, hev, hlk, hr1, hr2⟩ := spanCheck_decomp hok
  have hevS : evr.1 = [] ∧
      ∀ w ∈ evr.2, ∃ i, w.path = base ++ "/events/" ++ decStr i ++ "/timeUnixNano" := by
    split at hev
    · next xs =>
      have := exForIdx_shape (fun e => False)
        (fun w => ∃ i, w.path = base ++ "/events/" ++ decStr i ++ "/timeUnixNano")
        (fun i x r' _ hok' => by
          obtain ⟨h1, h2⟩ := eventCheck_shape hok'
          exact ⟨by intro e he; rw [h1] at he; simp at he,
                 fun w hw => ⟨i, h2 w hw⟩⟩) hev
      exact ⟨List.eq_nil_iff_forall_not_mem.mpr this.1, this.2⟩
    · next =>
      simp at hev
      rw [← hev]
      simp
  have hlkS : lkr.2 = [] ∧
      ∀ e ∈ lkr.1, ∃ i, e.path = base ++ "/links/" ++ decStr i ++ "/traceId" ∨
        e.path = base ++ "/links/" ++ decStr i ++ "/spanId" := by
    split at hlk
    · next xs =>
      have := exForIdx_shape
        (fun e => ∃ i, e.path = base ++ "/links/" ++ decStr i ++ "/traceId" ∨
          e.path = base ++ "/links/" ++ decStr i ++ "/spanId")
        (fun w => False)
        (fun i x r' _ hok' => by
          obtain ⟨h1, h2⟩ := linkCheck_shape hok'
          exact ⟨fun e he => ⟨i, h2 e he⟩,
                 by intro w hw; rw [h1] at hw; simp at hw⟩) hlk
      exact ⟨List.eq_nil_iff_forall_not_mem.mpr this.2, this.1⟩
    · next =>
      simp at hlk
      rw [← hlk]
      simp
  constructor
  · intro e he
    rw [hr1] at he
    simp only [List.mem_append] at he
    rcases he with (((he | he) | he) | he) | he
    · exact ⟨"/traceId", slashPrefix_head (by decide), mem_spanTidErrs he⟩
    · exact ⟨"/spanId", slashPrefix_head (by decide), mem_spanSidErrs he⟩
    · exact ⟨"/endTimeUnixNano", slashPrefix_head (by decide), mem_spanTimeErrs he⟩
    · rw [hevS.1] at he; simp at he
    · obtain ⟨i, hpath⟩ := hlkS.2 e he
      rcases hpath with hpath | hpath
      · exact ⟨"/links/" ++ (decStr i ++ "/traceId"),
          slashPrefix_head (head?_append_of_head (by decide)),
          by rw [hpath]; simp [String.append_assoc]⟩
      · exact ⟨"/links/" ++ (decStr i ++ "/spanId"),
          slashPrefix_head (head?_append_of_head (by decide)),
          by rw [hpath]; simp [String.append_assoc]⟩
  · intro w hw
    rw [hr2] at hw
    simp only [List.mem_append] at hw
    rcases hw with (hw | hw) | hw
    · exact ⟨"/startTimeUnixNano", slashPrefix_head (by decide), mem_spanTimeWarns hw⟩
    · obtain ⟨i, hpath⟩ := hevS.2 w hw
      exact ⟨"/events/" ++ (decStr i ++ "/timeUnixNano"),
        slashPrefix_head (head?_append_of_head (by decide)),
        by rw [hpath]; simp [String.append_assoc]⟩
    · rw [hlkS.1] at hw; simp at hw

theorem scopeSpansCheck_shape {now : ℤ} {a b : ℕ} {ss : Json} {r : Contribution}
    (hok : scopeSpansCheck now a b ss = .ok r) :
    (∀ e ∈ r.1, ∃ c suf, SlashPrefix suf ∧ e.path = traceBase a b c ++ suf) ∧
    (∀ w ∈ r.2, ∃ c suf, SlashPrefix suf ∧ w.path = traceBase a b c ++ suf) := by
  unfold scopeSpansCheck at hok
  simp only [bind] at hok
  obtain ⟨sp, _, hok2⟩ := bind_eq_ok hok
  split at hok2
  · next xs =>
    exact exForIdx_shape
      (fun e => ∃ c suf, SlashPrefix suf ∧ e.path = traceBase a b c ++ suf)
      (fun w => ∃ c suf, SlashPrefix suf ∧ w.path = traceBase a b c ++ suf)
      (fun i x r' _ hok' => by
        obtain ⟨h1, h2⟩ := spanCheck_shape hok'
        exact ⟨fun e he => by
            obtain ⟨suf, hs, hp⟩ := h1 e he
            exact ⟨i, suf, hs, hp⟩,
          fun w hw => by
            obtain ⟨suf, hs, hp⟩ := h2 w hw
            exact ⟨i, suf, hs, hp⟩⟩) hok2
  · next =>
    simp at hok2
    rw [← hok2]
    simp

theorem resourceSpansCheck_shape {now : ℤ} {a : ℕ} {rs : Json} {r : Contribution}
    (hok : resourceSpansCheck now a rs = .ok r) :
    (∀ e ∈ r.1, ∃ b c suf, SlashPrefix suf ∧ e.path = traceBase a b c ++ suf) ∧
    (∀ w ∈ r.2, ∃ b c suf, SlashPrefix suf ∧ w.path = traceBase a b c ++ suf) := by
  unfold resourceSpansCheck at hok
  simp only [bind] at hok
  obtain ⟨sv, _, hok2⟩ := bind_eq_ok hok
  split at hok2
  · next xs =>
    exact exForIdx_shape
      (fun e => ∃ b c suf, SlashPrefix suf ∧ e.path = traceBase a b c ++ suf)
      (fun w => ∃ b c suf, SlashPrefix suf ∧ w.path = traceBase a b c ++ suf)
      (fun i x r' _ hok' => by
        obtain ⟨h1, h2⟩ := scopeSpansCheck_shape hok'
        exact ⟨fun e he => by
            obtain ⟨c, suf, hs, hp⟩ := h1 e he
            exact ⟨i, c, suf, hs, hp⟩,
          fun w hw => by
            obtain ⟨c, suf, hs, hp⟩ := h2 w hw
            exact ⟨i, c, suf, hs, hp⟩⟩) hok2
  · next =>
    simp at hok2
    rw [← hok2]
    simp

theorem traceBase_inj {a b c a' b' c' : ℕ} {s s' : String}
    (hs : SlashPrefix s) (hs' : SlashPrefix s')
    (h : traceBase a b c ++ s = traceBase a' b' c' ++ s') :
    a = a' ∧ b = b' ∧ c = c' ∧ s = s' := by
  simp only [traceBase] at h
  exact idxPath3_peel (by decide) (by decide) hs hs' h

/-- Shape of the events part of a span contribution: no errors, warnings
under `.../events/i/timeUnixNano`. -/
theorem eventsRes_shape {base : String} {st et : Option Json} {o : Option Json}
    {evr : Contribution}
    (hev : (match o with
            | some (Json.arr xs) => exForIdx (eventCheck base st et) 0 xs
            | _ => Except.ok ([], [])) = .ok evr) :
    evr.1 = [] ∧ ∀ w ∈ evr.2, ∃ i, w.path = base ++ "/events/" ++ decStr i ++ "/timeUnixNano" := by
  split at hev
  · next xs =>
    have := exForIdx_shape (fun e => False)
      (fun w => ∃ i, w.path = base ++ "/events/" ++ decStr i ++ "/timeUnixNano")
      (fun i x r' _ hok' => by
        obtain ⟨h1, h2⟩ := eventCheck_shape hok'
        exact ⟨by intro e he; rw [h1] at he; simp at he,
               fun w hw => ⟨i, h2 w hw⟩⟩) hev
    exact ⟨List.eq_nil_iff_forall_not_mem.mpr this.1, this.2⟩
  · next =>
    injection hev with h4
    rw [← h4]
    simp

/-- Shape of the links part of a span contribution: no warnings, errors
under `.../links/i/traceId` or `.../links/i/spanId`. -/
theorem linksRes_shape {base : String} {o : Option Json} {lkr : Contribution}
    (hlk : (match o with
            | some (Json.arr xs) => exForIdx (linkCheck base) 0 xs
            | _ => Except.ok ([], [])) = .ok lkr) :
    lkr.2 = [] ∧ ∀ e ∈ lkr.1, ∃ i, e.path = base ++ "/links/" ++ decStr i ++ "/traceId" ∨
      e.path = base ++ "/links/" ++ decStr i ++ "/spanId" := by
  split at hlk
  · next xs =>
    have := exForIdx_shape
      (fun e => ∃ i, e.path = base ++ "/links/" ++ decStr i ++ "/traceId" ∨
        e.path = base ++ "/links/" ++ decStr i ++ "/spanId")
      (fun w => False)
      (fun i x r' _ hok' => by
        obtain ⟨h1, h2⟩ := linkCheck_shape hok'
        exact ⟨fun e he => ⟨i, h2 e he⟩,
               by intro w hw; rw [h1] at hw; simp at hw⟩) hlk
    exact ⟨List.eq_nil_iff_forall_not_mem.mpr this.2, this.1⟩
  · next =>
    injection hlk with h4
    rw [← h4]
    simp

/-! ## Path-inequality helpers -/

theorem append_ne {s a b : String} (h : a ≠ b) : s ++ a ≠ s ++ b :=
  fun he => h (string_append_cancel he)

theorem string_ne_of_index {s t : String} {i : ℕ} {a b : Char}
    (ha : s.data[i]? = some a) (hb : t.data[i]? = some b) (hab : a ≠ b) : s ≠ t := by
  intro h
  subst h
  rw [ha] at hb
  exact hab (Option.some_inj.mp hb)

theorem getElem_append_of_lt {p q : String} {n : ℕ} {c : Char}
    (h : p.data[n]? = some c) : (p ++ q).data[n]? = some c := by
  rw [String.data_append]
  have hlt := (List.getElem?_eq_some_iff.mp h).1
  rw [List.getElem?_append, if_pos hlt]
  exact h

theorem countP_epath_zero {l : List VError} {T : String}
    (h : ∀ e ∈ l, e.path ≠ T) : l.countP (fun e => e.path == T) = 0 := by
  apply List.countP_eq_zero.mpr
  intro e he
  simp only [beq_iff_eq]
  exact h e he

theorem countP_wpath_zero {l : List VWarning} {T : String}
    (h : ∀ w ∈ l, w.path ≠ T) : l.countP (fun w => w.path == T) = 0 := by
  apply List.countP_eq_zero.mpr
  intro w hw
  simp only [beq_iff_eq]
  exact h w hw

/-- Focusing the traces traversal on one span: counting issues whose path
is the span's base path followed by a slash-prefixed suffix reduces to
counting within that span's own contribution. -/
theorem traces_focus (now : ℤ) (p : Json) (a b c : ℕ)
    {rss sss spans : List Json} {rs ss span : Json}
    (hp : p.getProp "resourceSpans" = some (.arr rss))
    (ha : rss[a]? = some rs)
    (hb : rs.getProp "scopeSpans" = some (.arr sss))
    (hc : sss[b]? = some ss)
    (hd2 : ss.getProp "spans" = some (.arr spans))
    (he2 : spans[c]? = some span)
    {res : SemResult} (hres : validateTraceSemantics now p = .ok res)
    {suf0 : String} (hsuf : SlashPrefix suf0) :
    ∃ spanRes, spanCheck now (traceBase a b c) span = .ok spanRes ∧
      res.errors.countP (fun e => e.path == traceBase a b c ++ suf0) =
        spanRes.1.countP (fun e => e.path == traceBase a b c ++ suf0) ∧
      res.warnings.countP (fun w => w.path == traceBase a b c ++ suf0) =
        spanRes.2.countP (fun w => w.path == traceBase a b c ++ suf0) := by
  have hpn := getProp_some_not_null hp
  unfold validateTraceSemantics at hres
  simp only [bind, jsGet_ok _ hpn, exceptBind_ok] at hres
  rw [hp] at hres
  obtain ⟨r0, hex, hres2⟩ := bind_eq_ok hres
  injection hres2 with hres3
  obtain ⟨ra, hra⟩ := exForIdx_ok_at hex ha
  simp only [Nat.zero_add] at hra
  have hra2 := hra
  unfold resourceSpansCheck at hra2
  simp only [bind, jsGet_ok _ (getProp_some_not_null hb), exceptBind_ok] at hra2
  rw [hb] at hra2
  obtain ⟨rb, hrb⟩ := exForIdx_ok_at hra2 hc
  simp only [Nat.zero_add] at hrb
  have hrb2 := hrb
  unfold scopeSpansCheck at hrb2
  simp only [bind, jsGet_ok _ (getProp_some_not_null hd2), exceptBind_ok] at hrb2
  rw [hd2] at hrb2
  obtain ⟨rc, hrc⟩ := exForIdx_ok_at hrb2 he2
  simp only [Nat.zero_add] at hrc
  rw [spanAt] at hrc
  refine ⟨rc, hrc, ?_, ?_⟩
  · rw [← hres3]
    show r0.1.countP _ = _
    rw [exForIdx_errors_countP hex,
      enumFrom_map_sum_single ha 0 (fun k y hk hkne => by
        unfold errCount
        cases hky : resourceSpansCheck now (0 + k) y with
        | error e => rfl
        | ok ry =>
          apply List.countP_eq_zero.mpr
          intro e he
          obtain ⟨b', c', suf, hsl, hpath⟩ := (resourceSpansCheck_shape hky).1 e he
          simp only [beq_iff_eq]
          intro heq
          rw [hpath] at heq
          have hk0 : 0 + k = k := Nat.zero_add k
          rw [hk0] at heq
          exact hkne (traceBase_inj hsl hsuf heq).1)]
    unfold errCount
    simp only [Nat.zero_add]
    rw [hra]
    show ra.1.countP _ = _
    rw [exForIdx_errors_countP hra2,
      enumFrom_map_sum_single hc 0 (fun k y hk hkne => by
        unfold errCount
        cases hky : scopeSpansCheck now a (0 + k) y with
        | error e => rfl
        | ok ry =>
          apply List.countP_eq_zero.mpr
          intro e he
          obtain ⟨c', suf, hsl, hpath⟩ := (scopeSpansCheck_shape hky).1 e he
          simp only [beq_iff_eq]
          intro heq
          rw [hpath] at heq
          have hk0 : 0 + k = k := Nat.zero_add k
          rw [hk0] at heq
          exact hkne (traceBase_inj hsl hsuf heq).2.1)]
    unfold errCount
    simp only [Nat.zero_add]
    rw [hrb]
    show rb.1.countP _ = _
    rw [exForIdx_errors_countP hrb2,
      enumFrom_map_sum_single he2 0 (fun k y hk hkne => by
        unfold errCount
        cases hky : spanAt now a b (0 + k) y with
        | error e => rfl
        | ok ry =>
          apply List.countP_eq_zero.mpr
          intro e he
          obtain ⟨suf, hsl, hpath⟩ := (spanCheck_shape hky).1 e he
          simp only [beq_iff_eq]
          intro heq
          rw [hpath] at heq
          have hk0 : 0 + k = k := Nat.zero_add k
          rw [hk0] at heq
          exact hkne (traceBase_inj hsl hsuf heq).2.2.1)]
    unfold errCount
    simp only [Nat.zero_add]
    rw [spanAt, hrc]
  · rw [← hres3]
    show r0.2.countP _ = _
    rw [exForIdx_warnings_countP hex,
      enumFrom_map_sum_single ha 0 (fun k y hk hkne => by
        unfold warnCount
        cases hky : resourceSpansCheck now (0 + k) y with
        | error e => rfl
        | ok ry =>
          apply List.countP_eq_zero.mpr
          intro w hw
          obtain ⟨b', c', suf, hsl, hpath⟩ := (resourceSpansCheck_shape hky).2 w hw
          simp only [beq_iff_eq]
          intro heq
          rw [hpath] at heq
          have hk0 : 0 + k = k := Nat.zero_add k
          rw [hk0] at heq
          exact hkne (traceBase_inj hsl hsuf heq).1)]
    unfold warnCount
    simp only [Nat.zero_add]
    rw [hra]
    show ra.2.countP _ = _
    rw [exForIdx_warnings_countP hra2,
      enumFrom_map_sum_single hc 0 (fun k y hk hkne => by
        unfold warnCount
        cases hky : scopeSpansCheck now a (0 + k) y with
        | error e => rfl
        | ok ry =>
          apply List.countP_eq_zero.mpr
          intro w hw
          obtain ⟨c', suf, hsl, hpath⟩ := (scopeSpansCheck_shape hky).2 w hw
          simp only [beq_iff_eq]
          intro heq
          rw [hpath] at heq
          have hk0 : 0 + k = k := Nat.zero_add k
          rw [hk0] at heq
          exact hkne (traceBase_inj hsl hsuf heq).2.1)]
    unfold warnCount
    simp only [Nat.zero_add]
    rw [hrb]
    show rb.2.countP _ = _
    rw [exForIdx_warnings_countP hrb2,
      enumFrom_map_sum_single he2 0 (fun k y hk hkne => by
        unfold warnCount
        cases hky : spanAt now a b (0 + k) y with
        | error e => rfl
        | ok ry =>
          apply List.countP_eq_zero.mpr
          intro w hw
          obtain ⟨suf, hsl, hpath⟩ := (spanCheck_shape hky).2 w hw
          simp only [beq_iff_eq]
          intro heq
          rw [hpath] at heq
          have hk0 : 0 + k = k := Nat.zero_add k
          rw [hk0] at heq
          exact hkne (traceBase_inj hsl hsuf heq).2.2.1)]
    unfold warnCount
    simp only [Nat.zero_add]
    rw [spanAt, hrc]

/-- A span whose `traceId` is the 32-zero string contributes exactly one
error at `base ++ "/traceId"`. -/
theorem spanCheck_count_traceId {now : ℤ} {base : String} {span : Json} {rc : Contribution}
    (htid : span.getProp "traceId" = some (.str zeros32))
    (hok : spanCheck now base span = .ok rc) :
    rc.1.countP (fun e => e.path == base ++ "/traceId") = 1 := by
  obtain ⟨evr, lkr, hev, hlk, hr1, _⟩ := spanCheck_decomp hok
  have hevS := eventsRes_shape hev
  have hlkS := linksRes_shape hlk
  rw [hr1]
  simp only [List.countP_append]
  have h1 : (spanTidErrs base (span.getProp "traceId")).countP
      (fun e => e.path == base ++ "/traceId") = 1 := by
    rw [htid]
    unfold spanTidErrs
    simp [Json.truthy, jsStrictEq, zeros32, List.countP_cons]
  have h2 : (spanSidErrs base (span.getProp "spanId")).countP
      (fun e => e.path == base ++ "/traceId") = 0 :=
    countP_epath_zero (fun e he => by
      rw [mem_spanSidErrs he]
      exact append_ne (by decide))
  have h3 : ((spanTimePart now base (span.getProp "startTimeUnixNano")
      (span.getProp "endTimeUnixNano")).1).countP
      (fun e => e.path == base ++ "/traceId") = 0 :=
    countP_epath_zero (fun e he => by
      rw [mem_spanTimeErrs he]
      exact append_ne (by decide))
  have h4 : evr.1.countP (fun e => e.path == base ++ "/traceId") = 0 := by
    rw [hevS.1]
    rfl
  have h5 : lkr.1.countP (fun e => e.path == base ++ "/traceId") = 0 := by
    apply countP_epath_zero
    intro e he
    obtain ⟨i, hp⟩ := hlkS.2 e he
    rcases hp with hp | hp <;>
      (rw [hp, String.append_assoc, String.append_assoc]
       exact append_ne (string_ne_of_index (i := 1) (a := 'l') (b := 't')
         (getElem_append_of_lt (by decide)) (by decide) (by decide)))
  rw [h1, h2, h3, h4, h5]

theorem detect_traces {p : Json} {xs : List Json}
    (hp : p.getProp "resourceSpans" = some (.arr xs)) :
    detectPayloadType p = some .traces := by
  cases p <;> simp [Json.getProp] at hp <;> try exact hp.elim
  next fields =>
    simp [detectPayloadType, hp, Json.isArray]

/-- C4: For every span in a traces payload whose `traceId` field is
present and equal to the 32-character all-zero string, the semantic layer
produces exactly one error whose path is the span's base path followed by
`/traceId`, and the overall result of `validateOTLPPayload` has
`valid = false`. -/
theorem claim_C4 (now : ℤ) (p : Json) (a b c : ℕ)
    {rss sss spans : List Json} {rs ss span : Json}
    (hp : p.getProp "resourceSpans" = some (.arr rss))
    (ha : rss[a]? = some rs)
    (hb : rs.getProp "scopeSpans" = some (.arr sss))
    (hc : sss[b]? = some ss)
    (hd2 : ss.getProp "spans" = some (.arr spans))
    (he2 : spans[c]? = some span)
    (htid : span.getProp "traceId" = some (.str zeros32))
    {res : SemResult} (hres : validateTraceSemantics now p = .ok res) :
    res.errors.countP (fun e => e.path == traceBase a b c ++ "/traceId") = 1 ∧
    ∀ r2, validateOTLPPayload now p = .ok r2 → r2.valid = false := by
  obtain ⟨rc, hrc, hce, _⟩ :=
    traces_focus now p a b c hp ha hb hc hd2 he2 hres
      (show SlashPrefix "/traceId" from slashPrefix_head (by decide))
  have hcount : res.errors.countP (fun e => e.path == traceBase a b c ++ "/traceId") = 1 := by
    rw [hce]
    exact spanCheck_count_traceId htid hrc
  refine ⟨hcount, ?_⟩
  intro r2 h2
  have hdet := detect_traces hp
  unfold validateOTLPPayload at h2
  rw [hdet] at h2
  simp only [bind, Except.bind] at h2
  rw [show runSemantic now OTLPPayloadType.traces p = validateTraceSemantics now p from rfl,
    hres] at h2
  injection h2 with h3
  rw [← h3]
  have hne : res.errors ≠ [] := by
    intro h0
    rw [h0] at hcount
    simp at hcount
  show ((schemaErrorsOf OTLPPayloadType.traces p).map toVError ++ res.errors).isEmpty = false
  rw [List.isEmpty_eq_false]
  simp only [ne_eq, List.append_eq_nil]
  rintro ⟨-, h0⟩
  exact hne h0

/-- Witness for C4: a single span with an all-zero traceId. -/
theorem claim_C4_witness :
    (SemResult.errors ⟨[⟨traceBase 0 0 0 ++ "/traceId", "traceId must not be all zeros",
        "semantic", "#/$defs/span/properties/traceId"⟩], []⟩).countP
      (fun e => e.path == traceBase 0 0 0 ++ "/traceId") = 1 ∧
    ∀ r2, validateOTLPPayload 0 (.obj [("resourceSpans", .arr [.obj [("scopeSpans", .arr
      [.obj [("spans", .arr [.obj [("traceId", .str zeros32)]])]])]])]) = .ok r2 →
      r2.valid = false :=
  claim_C4 0
    (.obj [("resourceSpans", .arr [.obj [("scopeSpans", .arr
      [.obj [("spans", .arr [.obj [("traceId", .str zeros32)]])]])]])])
    0 0 0 rfl rfl rfl rfl rfl rfl rfl rfl

/-- Exact count of timestamp-ordering errors contributed by one span. -/
theorem spanCheck_count_endTime {now : ℤ} {base : String} {span : Json} {rc : Contribution}
    {sv ev : Json}
    (hst : span.getProp "startTimeUnixNano" = some sv)
    (het : span.getProp "endTimeUnixNano" = some ev)
    (hok : spanCheck now base span = .ok rc) :
    rc.1.countP (fun e => e.path == base ++ "/endTimeUnixNano") =
      (match jsBigInt sv, jsBigInt ev with
       | some S, some E => if E < S then 1 else 0
       | _, _ => 0) := by
  obtain ⟨evr, lkr, hev, hlk, hr1, _⟩ := spanCheck_decomp hok
  have hevS := eventsRes_shape hev
  have hlkS := linksRes_shape hlk
  rw [hr1]
  simp only [List.countP_append]
  have h1 : (spanTidErrs base (span.getProp "traceId")).countP
      (fun e => e.path == base ++ "/endTimeUnixNano") = 0 :=
    countP_epath_zero (fun e he => by
      rw [mem_spanTidErrs he]
      exact append_ne (by decide))
  have h2 : (spanSidErrs base (span.getProp "spanId")).countP
      (fun e => e.path == base ++ "/endTimeUnixNano") = 0 :=
    countP_epath_zero (fun e he => by
      rw [mem_spanSidErrs he]
      exact append_ne (by decide))
  have h3 : ((spanTimePart now base (span.getProp "startTimeUnixNano")
      (span.getProp "endTimeUnixNano")).1).countP
      (fun e => e.path == base ++ "/endTimeUnixNano") =
      (match jsBigInt sv, jsBigInt ev with
       | some S, some E => if E < S then 1 else 0
       | _, _ => 0) := by
    rw [hst, het]
    show (spanTimeCore now base (jsBigInt sv) (jsBigInt ev)).1.countP
        (fun e => e.path == base ++ "/endTimeUnixNano") = _
    rcases jsBigInt sv with _ | S <;> rcases jsBigInt ev with _ | E <;>
      (try rfl) <;> unfold spanTimeCore <;>
      by_cases hlt : E < S <;> simp [hlt, List.countP_cons]
  have h4 : evr.1.countP (fun e => e.path == base ++ "/endTimeUnixNano") = 0 := by
    rw [hevS.1]
    rfl
  have h5 : lkr.1.countP (fun e => e.path == base ++ "/endTimeUnixNano") = 0 := by
    apply countP_epath_zero
    intro e he
    obtain ⟨i, hp⟩ := hlkS.2 e he
    rcases hp with hp | hp <;>
      (rw [hp, String.append_assoc, String.append_assoc]
       exact append_ne (string_ne_of_index (i := 1) (a := 'l') (b := 'e')
         (getElem_append_of_lt (by decide)) (by decide) (by decide)))
  rw [h1, h2, h3, h4, h5]
  omega

/-- C7: For every span where both `startTimeUnixNano` and
`endTimeUnixNano` are present, a semantic error at the span's
`.../endTimeUnixNano` path is produced exactly when both values convert
under `BigInt` and the decoded end is smaller than the decoded start
(exact integer comparison); when either conversion fails, no
timestamp-ordering error is produced for that span, and the conversion
failure is confined to that check (`jsBigInt` models the caught
exception, so nothing escapes the checker). -/
theorem claim_C7 (now : ℤ) (p : Json) (a b c : ℕ)
    {rss sss spans : List Json} {rs ss span : Json} {sv ev : Json}
    (hp : p.getProp "resourceSpans" = some (.arr rss))
    (ha : rss[a]? = some rs)
    (hb : rs.getProp "scopeSpans" = some (.arr sss))
    (hc : sss[b]? = some ss)
    (hd2 : ss.getProp "spans" = some (.arr spans))
    (he2 : spans[c]? = some span)
    (hst : span.getProp "startTimeUnixNano" = some sv)
    (het : span.getProp "endTimeUnixNano" = some ev)
    {res : SemResult} (hres : validateTraceSemantics now p = .ok res) :
    (∀ S E, jsBigInt sv = some S → jsBigInt ev = some E →
      res.errors.countP (fun e => e.path == traceBase a b c ++ "/endTimeUnixNano") =
        if E < S then 1 else 0) ∧
    ((jsBigInt sv = none ∨ jsBigInt ev = none) →
      res.errors.countP (fun e => e.path == traceBase a b c ++ "/endTimeUnixNano") = 0) := by
  obtain ⟨rc, hrc, hce, _⟩ :=
    traces_focus now p a b c hp ha hb hc hd2 he2 hres
      (show SlashPrefix "/endTimeUnixNano" from slashPrefix_head (by decide))
  have hcount := spanCheck_count_endTime hst het hrc
  constructor
  · intro S E hbs hbe
    rw [hce, hcount, hbs, hbe]
  · intro hfail
    rw [hce, hcount]
    rcases hfail with hfail | hfail
    · rw [hfail]
    · rw [hfail]
      cases jsBigInt sv <;> rfl

/-- Witness for C7 at a span with end before start. -/
theorem claim_C7_witness :
    (∀ S E, jsBigInt (.str "100") = some S → jsBigInt (.str "50") = some E →
      (SemResult.errors ⟨[⟨traceBase 0 0 0 ++ "/endTimeUnixNano",
          "endTimeUnixNano must be greater than or equal to startTimeUnixNano",
          "semantic", "#/$defs/span/properties/endTimeUnixNano"⟩], []⟩).countP
        (fun e => e.path == traceBase 0 0 0 ++ "/endTimeUnixNano") =
        if E < S then 1 else 0) ∧
    ((jsBigInt (.str "100") = none ∨ jsBigInt (.str "50") = none) →
      (SemResult.errors ⟨[⟨traceBase 0 0 0 ++ "/endTimeUnixNano",
          "endTimeUnixNano must be greater than or equal to startTimeUnixNano",
          "semantic", "#/$defs/span/properties/endTimeUnixNano"⟩], []⟩).countP
        (fun e => e.path == traceBase 0 0 0 ++ "/endTimeUnixNano") = 0) :=
  claim_C7 0
    (.obj [("resourceSpans", .arr [.obj [("scopeSpans", .arr [.obj [("spans", .arr
      [.obj [("startTimeUnixNano", .str "100"), ("endTimeUnixNano", .str "50")]])]])]])])
    0 0 0 rfl rfl rfl rfl rfl rfl rfl rfl rfl

/-- Exact count of clock-skew warnings contributed by one span whose
start time parses and lies beyond the one-minute grace period. -/
theorem spanCheck_count_skew {now : ℤ} {base : String} {span : Json} {rc : Contribution}
    {sv ev : Json} {S E : ℤ}
    (hst : span.getProp "startTimeUnixNano" = some sv)
    (het : span.getProp "endTimeUnixNano" = some ev)
    (hbs : jsBigInt sv = some S) (hbe : jsBigInt ev = some E)
    (hfut : S > now * 1000000 + 60000000000)
    (hok : spanCheck now base span = .ok rc) :
    rc.2.countP (fun w => w.path == base ++ "/startTimeUnixNano") = 1 ∧
    rc.1.countP (fun e => e.path == base ++ "/startTimeUnixNano") = 0 := by
  obtain ⟨evr, lkr, hev, hlk, hr1, hr2⟩ := spanCheck_decomp hok
  have hevS := eventsRes_shape hev
  have hlkS := linksRes_shape hlk
  constructor
  · rw [hr2]
    simp only [List.countP_append]
    have h1 : ((spanTimePart now base (span.getProp "startTimeUnixNano")
        (span.getProp "endTimeUnixNano")).2).countP
        (fun w => w.path == base ++ "/startTimeUnixNano") = 1 := by
      rw [hst, het]
      show (spanTimeCore now base (jsBigInt sv) (jsBigInt ev)).2.countP
          (fun w => w.path == base ++ "/startTimeUnixNano") = 1
      rw [hbs, hbe]
      unfold spanTimeCore
      simp [if_pos hfut, List.countP_cons]
    have h2 : evr.2.countP (fun w => w.path == base ++ "/startTimeUnixNano") = 0 := by
      apply countP_wpath_zero
      intro w hw
      obtain ⟨i, hp⟩ := hevS.2 w hw
      rw [hp, String.append_assoc, String.append_assoc]
      exact append_ne (string_ne_of_index (i := 1) (a := 'e') (b := 's')
        (getElem_append_of_lt (by decide)) (by decide) (by decide))
    have h3 : lkr.2.countP (fun w => w.path == base ++ "/startTimeUnixNano") = 0 := by
      rw [hlkS.1]
      rfl
    rw [h1, h2, h3]
  · rw [hr1]
    simp only [List.countP_append]
    have h1 : (spanTidErrs base (span.getProp "traceId")).countP
        (fun e => e.path == base ++ "/startTimeUnixNano") = 0 :=
      countP_epath_zero (fun e he => by
        rw [mem_spanTidErrs he]
        exact append_ne (by decide))
    have h2 : (spanSidErrs base (span.getProp "spanId")).countP
        (fun e => e.path == base ++ "/startTimeUnixNano") = 0 :=
      countP_epath_zero (fun e he => by
        rw [mem_spanSidErrs he]
        exact append_ne (by decide))
    have h3 : ((spanTimePart now base (span.getProp "startTimeUnixNano")
        (span.getProp "endTimeUnixNano")).1).countP
        (fun e => e.path == base ++ "/startTimeUnixNano") = 0 :=
      countP_epath_zero (fun e he => by
        rw [mem_spanTimeErrs he]
        exact append_ne (by decide))
    have h4 : evr.1.countP (fun e => e.path == base ++ "/startTimeUnixNano") = 0 := by
      rw [hevS.1]
      rfl
    have h5 : lkr.1.countP (fun e => e.path == base ++ "/startTimeUnixNano") = 0 := by
      apply countP_epath_zero
      intro e he
      obtain ⟨i, hp⟩ := hlkS.2 e he
      rcases hp with hp | hp <;>
        (rw [hp, String.append_assoc, String.append_assoc]
         exact append_ne (string_ne_of_index (i := 1) (a := 'l') (b := 's')
           (getElem_append_of_lt (by decide)) (by decide) (by decide)))
    rw [h1, h2, h3, h4, h5]

/-- C8 (amended): the future-start clock-skew warning is recorded — as a
warning, never an error — only when **both** `startTimeUnixNano` and
`endTimeUnixNano` are present and both convert under `BigInt`; under
those conditions a start time beyond `now + 60s` yields exactly one
warning at the span's `.../startTimeUnixNano` path and no error at that
path. -/
theorem claim_C8_amended (now : ℤ) (p : Json) (a b c : ℕ)
    {rss sss spans : List Json} {rs ss span : Json} {sv ev : Json} {S E : ℤ}
    (hp : p.getProp "resourceSpans" = some (.arr rss))
    (ha : rss[a]? = some rs)
    (hb : rs.getProp "scopeSpans" = some (.arr sss))
    (hc : sss[b]? = some ss)
    (hd2 : ss.getProp "spans" = some (.arr spans))
    (he2 : spans[c]? = some span)
    (hst : span.getProp "startTimeUnixNano" = some sv)
    (het : span.getProp "endTimeUnixNano" = some ev)
    (hbs : jsBigInt sv = some S) (hbe : jsBigInt ev = some E)
    (hfut : S > now * 1000000 + 60000000000)
    {res : SemResult} (hres : validateTraceSemantics now p = .ok res) :
    res.warnings.countP (fun w => w.path == traceBase a b c ++ "/startTimeUnixNano") = 1 ∧
    res.errors.countP (fun e => e.path == traceBase a b c ++ "/startTimeUnixNano") = 0 := by
  obtain ⟨rc, hrc, hce, hcw⟩ :=
    traces_focus now p a b c hp ha hb hc hd2 he2 hres
      (show SlashPrefix "/startTimeUnixNano" from slashPrefix_head (by decide))
  obtain ⟨hw1, he1⟩ := spanCheck_count_skew hst het hbs hbe hfut hrc
  exact ⟨by rw [hcw, hw1], by rw [hce, he1]⟩

/-- Witness for C8 (amended). -/
theorem claim_C8_witness :
    (SemResult.warnings ⟨[], [⟨traceBase 0 0 0 ++ "/startTimeUnixNano",
        "startTimeUnixNano is significantly in the future, possible clock skew",
        some "Verify timestamp is in nanoseconds since Unix epoch"⟩]⟩).countP
      (fun w => w.path == traceBase 0 0 0 ++ "/startTimeUnixNano") = 1 ∧
    (SemResult.errors ⟨[], [⟨traceBase 0 0 0 ++ "/startTimeUnixNano",
        "startTimeUnixNano is significantly in the future, possible clock skew",
        some "Verify timestamp is in nanoseconds since Unix epoch"⟩]⟩).countP
      (fun e => e.path == traceBase 0 0 0 ++ "/startTimeUnixNano") = 0 :=
  claim_C8_amended 0
    (.obj [("resourceSpans", .arr [.obj [("scopeSpans", .arr [.obj [("spans", .arr
      [.obj [("startTimeUnixNano", .str "99999999999999999999999"),
             ("endTimeUnixNano", .str "99999999999999999999999")]])]])]])])
    0 0 0 (S := 99999999999999999999999) (E := 99999999999999999999999)
    rfl rfl rfl rfl rfl rfl rfl rfl (by decide) (by decide) (by decide) rfl

/-- C8 (counterexample): a span whose `startTimeUnixNano` is present and
converts to a value far beyond `now + 60s`, but which has no
`endTimeUnixNano`, produces **no** clock-skew warning: the check is
nested inside the both-timestamps-present block. -/
theorem claim_C8_counterexample :
    (Json.obj [("startTimeUnixNano", .str "99999999999999999999999")]).getProp
        "startTimeUnixNano" = some (.str "99999999999999999999999") ∧
    jsBigInt (.str "99999999999999999999999") = some 99999999999999999999999 ∧
    (99999999999999999999999 : ℤ) > 1700000000000 * 1000000 + 60000000000 ∧
    validateTraceSemantics 1700000000000
      (.obj [("resourceSpans", .arr [.obj [("scopeSpans", .arr [.obj [("spans", .arr
        [.obj [("startTimeUnixNano", .str "99999999999999999999999")]])]])]])]) =
      .ok ⟨[], []⟩ :=
  ⟨rfl, by decide, by decide, rfl⟩

/-! ## Metric decomposition machinery -/

/-- The `metricData` value selected by the per-metric body: the property
named by the first present data type (reading property `"undefined"` when
none is present). -/
def metricDataOf (m : Json) : Option Json :=
  match (presentTypesOf m).head? with
  | some dt => m.getProp dt
  | none => m.getProp "undefined"

/-- The data-type name interpolated into data-point paths
(`"undefined"` when no variant is present). -/
def dtNameOf (m : Json) : String :=
  match (presentTypesOf m).head? with
  | some dt => dt
  | none => "undefined"

/-- The value of `metricData?.dataPoints` (optional chaining). -/
def dpvOf (m : Json) : Option Json :=
  match metricDataOf m with
  | some .null => none
  | some md => md.getProp "dataPoints"
  | none => none

/-- The histogram-specific errors of one data point (empty for any other
selected data type). -/
def histErrsOf (dt : Option String) (dpPath : String) (dp : Json) : List VError :=
  if dt = some "histogram" then
    histBucketErrs dpPath (dp.getProp "bucketCounts") (dp.getProp "explicitBounds") ++
      histMonoErrs dpPath (dp.getProp "explicitBounds")
  else []

theorem string_append_empty (s : String) : s ++ "" = s := by
  cases s
  show String.mk _ = String.mk _
  simp [String.append]

theorem string_ne_append_of_head {s t : String}
    (h : t.data.head? = some '/') : s ≠ s ++ t := by
  intro he
  have hd := congrArg (fun u => u.data.length) he
  simp only [String.data_append, List.length_append] at hd
  cases ht : t.data with
  | nil => rw [ht] at h; simp at h
  | cons x l => rw [ht] at hd; simp at hd

theorem countP_and_true {α : Type} {l : List α} {p : α → Bool} :
    l.countP (fun x => p x && true) = l.countP p :=
  List.countP_congr (fun x _ => by simp)

theorem metricCheck_not_null {base : String} {m : Json} {r : Contribution}
    (hok : metricCheck base m = .ok r) : m.isNull = false := by
  cases m <;> first
    | rfl
    | (unfold metricCheck at hok
       simp [bind, Json.jsGet, Except.bind] at hok)

theorem metricCheck_decomp {base : String} {m : Json} {r : Contribution}
    (hok : metricCheck base m = .ok r) :
    ∃ dpRes : Contribution,
      (match dpvOf m with
        | some (Json.arr xs) =>
          exForIdx (dataPointAt (presentTypesOf m).head? (dtNameOf m) base) 0 xs
        | _ => Except.ok ([], [])) = .ok dpRes ∧
      r.1 = metricCardErrs base (presentTypesOf m) ++ dpRes.1 ∧
      r.2 = dpRes.2 ++ metricSumWarns base (presentTypesOf m).head? (metricDataOf m) := by
  have hnn := metricCheck_not_null hok
  unfold metricCheck at hok
  simp only [bind, jsGet_ok _ hnn, exceptBind_ok] at hok
  obtain ⟨dpRes, hdp, hok2⟩ := bind_eq_ok hok
  injection hok2 with hok3
  exact ⟨dpRes, hdp, (congrArg Prod.fst hok3).symm, (congrArg Prod.snd hok3).symm⟩

theorem dataPointCheck_not_null {dt : Option String} {dpPath : String} {dp : Json}
    {r : Contribution} (hok : dataPointCheck dt dpPath dp = .ok r) : dp.isNull = false := by
  cases dp <;> first
    | rfl
    | (unfold dataPointCheck at hok
       simp [bind, Json.jsGet, Except.bind] at hok)

theorem dataPointCheck_decomp {dt : Option String} {dpPath : String} {dp : Json}
    {r : Contribution} (hok : dataPointCheck dt dpPath dp = .ok r) :
    ∃ exRes : Contribution,
      (match dp.getProp "exemplars" with
        | some (Json.arr xs) => exForIdx (exemplarCheck dpPath) 0 xs
        | _ => Except.ok ([], [])) = .ok exRes ∧
      r.1 = dpTimeErrs dpPath (dp.getProp "startTimeUnixNano") (dp.getProp "timeUnixNano") ++
              histErrsOf dt dpPath dp ++ exRes.1 ∧
      r.2 = exRes.2 := by
  have hnn := dataPointCheck_not_null hok
  unfold dataPointCheck at hok
  simp only [bind, jsGet_ok _ hnn, exceptBind_ok] at hok
  obtain ⟨histErrs, hhe, hok2⟩ := bind_eq_ok hok
  obtain ⟨exRes, hex, hok3⟩ := bind_eq_ok hok2
  injection hok3 with hok4
  have hhev : histErrs = histErrsOf dt dpPath dp := by
    by_cases hdt : dt = some "histogram" <;>
      (unfold histErrsOf
       simp only [hdt, if_true, if_false, reduceIte, bind, jsGet_ok _ hnn, exceptBind_ok] at hhe ⊢ <;>
       first
         | (injection hhe with h5; exact h5.symm)
         | rfl)
  refine ⟨exRes, hex, ?_, (congrArg Prod.snd hok4).symm⟩
  have h1 := (congrArg Prod.fst hok4).symm
  rw [h1, hhev]

theorem mem_metricCardErrs {base : String} {l : List String} {e : VError}
    (h : e ∈ metricCardErrs base l) : e.path = base := by
  unfold metricCardErrs at h
  split at h <;> [skip; split at h] <;> simp at h <;> rw [h]

theorem mem_metricSumWarns {base : String} {dt : Option String} {md : Option Json}
    {w : VWarning} (h : w ∈ metricSumWarns base dt md) : w.path = base ++ "/sum" := by
  unfold metricSumWarns at h
  split at h
  · split at h
    · dsimp only at h
      split at h <;> simp at h
      rw [h]
    · simp at h
  · simp at h

theorem metricSumWarns_ne_sum {base : String} {dt : Option String} {md : Option Json}
    (h : dt ≠ some "sum") : metricSumWarns base dt md = [] := by
  unfold metricSumWarns
  rw [if_neg]
  intro hc
  exact h hc.1

theorem mem_dpTimeErrs {dpPath : String} {st tv : Option Json} {e : VError}
    (h : e ∈ dpTimeErrs dpPath st tv) : e.path = dpPath ++ "/timeUnixNano" := by
  unfold dpTimeErrs at h
  split at h
  · split at h
    · split at h <;> simp at h
      rw [h]
    · simp at h
  · simp at h

theorem mem_histBucketErrs {dpPath : String} {bc eb : Option Json} {e : VError}
    (h : e ∈ histBucketErrs dpPath bc eb) : e.path = dpPath ++ "/bucketCounts" := by
  unfold histBucketErrs at h
  split at h
  · split at h
    · dsimp only at h
      split at h <;> simp at h
      rw [h]
    · simp at h
  · simp at h

theorem mem_histMonoErrs {dpPath : String} {eb : Option Json} {e : VError}
    (h : e ∈ histMonoErrs dpPath eb) :
    ∃ i, e.path = dpPath ++ "/explicitBounds/" ++ decStr i := by
  unfold histMonoErrs at h
  split at h
  · split at h
    · simp at h
    · split at h <;> simp at h
      next i yi yprev _ =>
        exact ⟨i, by rw [h]⟩
  · simp at h

theorem mem_histErrsOf {dt : Option String} {dpPath : String} {dp : Json} {e : VError}
    (h : e ∈ histErrsOf dt dpPath dp) :
    e.path = dpPath ++ "/bucketCounts" ∨
      ∃ i, e.path = dpPath ++ "/explicitBounds/" ++ decStr i := by
  unfold histErrsOf at h
  split at h
  · rcases List.mem_append.mp h with h | h
    · exact Or.inl (mem_histBucketErrs h)
    · exact Or.inr (mem_histMonoErrs h)
  · simp at h

theorem exemplarCheck_shape {dpPath : String} {i : ℕ} {ex : Json} {r : Contribution}
    (hok : exemplarCheck dpPath i ex = .ok r) :
    r.1 = [] ∧ ∀ w ∈ r.2, w.path = dpPath ++ "/exemplars/" ++ decStr i ++ "/traceId" ∨
      w.path = dpPath ++ "/exemplars/" ++ decStr i ++ "/spanId" := by
  unfold exemplarCheck at hok
  simp only [bind] at hok
  obtain ⟨etid, _, hok2⟩ := bind_eq_ok hok
  obtain ⟨esid, _, hok3⟩ := bind_eq_ok hok2
  injection hok3 with h4
  rw [← h4]
  refine ⟨rfl, ?_⟩
  intro w hw
  rcases List.mem_append.mp hw with hw | hw
  · left
    rw [mem_opt_if_single hw]
  · right
    rw [mem_opt_if_single hw]

/-- Shape of the exemplars part of a data-point contribution. -/
theorem exemplarsRes_shape {dpPath : String} {o : Option Json} {exRes : Contribution}
    (hex : (match o with
            | some (Json.arr xs) => exForIdx (exemplarCheck dpPath) 0 xs
            | _ => Except.ok ([], [])) = .ok exRes) :
    exRes.1 = [] ∧ ∀ w ∈ exRes.2, ∃ i,
      w.path = dpPath ++ "/exemplars/" ++ decStr i ++ "/traceId" ∨
      w.path = dpPath ++ "/exemplars/" ++ decStr i ++ "/spanId" := by
  split at hex
  · next xs =>
    have := exForIdx_shape
      (fun e => False)
      (fun w => ∃ i, w.path = dpPath ++ "/exemplars/" ++ decStr i ++ "/traceId" ∨
        w.path = dpPath ++ "/exemplars/" ++ decStr i ++ "/spanId")
      (fun i x r' _ hok' => by
        obtain ⟨h1, h2⟩ := exemplarCheck_shape hok'
        exact ⟨by intro e he; rw [h1] at he; simp at he,
               fun w hw => ⟨i, h2 w hw⟩⟩) hex
    exact ⟨List.eq_nil_iff_forall_not_mem.mpr this.1, this.2⟩
  · next =>
    injection hex with h4
    rw [← h4]
    simp

/-- Every issue of a data point lives strictly below the data point's
path. -/
theorem dataPointCheck_shape {dt : Option String} {dpPath : String} {dp : Json}
    {r : Contribution} (hok : dataPointCheck dt dpPath dp = .ok r) :
    (∀ e ∈ r.1, ∃ suf, suf.data.head? = some '/' ∧ e.path = dpPath ++ suf) ∧
    (∀ w ∈ r.2, ∃ suf, suf.data.head? = some '/' ∧ w.path = dpPath ++ suf) := by
  obtain ⟨exRes, hex, hr1, hr2⟩ := dataPointCheck_decomp hok
  have hexS := exemplarsRes_shape hex
  constructor
  · intro e he
    rw [hr1] at he
    simp only [List.mem_append] at he
    rcases he with (he | he) | he
    · exact ⟨"/timeUnixNano", by decide, mem_dpTimeErrs he⟩
    · rcases mem_histErrsOf he with hp | ⟨i, hp⟩
      · exact ⟨"/bucketCounts", by decide, hp⟩
      · exact ⟨"/explicitBounds/" ++ decStr i, head?_append_of_head (by decide),
          by rw [hp]; simp [String.append_assoc]⟩
    · rw [hexS.1] at he; simp at he
  · intro w hw
    rw [hr2] at hw
    obtain ⟨i, hp⟩ := hexS.2 w hw
    rcases hp with hp | hp
    · exact ⟨"/exemplars/" ++ (decStr i ++ "/traceId"),
        head?_append_of_head (by decide),
        by rw [hp]; simp [String.append_assoc]⟩
    · exact ⟨"/exemplars/" ++ (decStr i ++ "/spanId"),
        head?_append_of_head (by decide),
        by rw [hp]; simp [String.append_assoc]⟩

/-- Shape of the data-points part of a metric contribution. -/
theorem dpsRes_shape {dt : Option String} {dtName base : String} {o : Option Json}
    {dpRes : Contribution}
    (hdp : (match o with
            | some (Json.arr xs) => exForIdx (dataPointAt dt dtName base) 0 xs
            | _ => Except.ok ([], [])) = .ok dpRes) :
    (∀ e ∈ dpRes.1, ∃ k suf, suf.data.head? = some '/' ∧
       e.path = base ++ "/" ++ dtName ++ "/dataPoints/" ++ decStr k ++ suf) ∧
    (∀ w ∈ dpRes.2, ∃ k suf, suf.data.head? = some '/' ∧
       w.path = base ++ "/" ++ dtName ++ "/dataPoints/" ++ decStr k ++ suf) := by
  split at hdp
  · next xs =>
    exact exForIdx_shape
      (fun e => ∃ k suf, suf.data.head? = some '/' ∧
        e.path = base ++ "/" ++ dtName ++ "/dataPoints/" ++ decStr k ++ suf)
      (fun w => ∃ k suf, suf.data.head? = some '/' ∧
        w.path = base ++ "/" ++ dtName ++ "/dataPoints/" ++ decStr k ++ suf)
      (fun i x r' _ hok' => by
        obtain ⟨h1, h2⟩ := dataPointCheck_shape hok'
        exact ⟨fun e he => by
            obtain ⟨suf, hh, hp⟩ := h1 e he
            exact ⟨i, suf, hh, hp⟩,
          fun w hw => by
            obtain ⟨suf, hh, hp⟩ := h2 w hw
            exact ⟨i, suf, hh, hp⟩⟩) hdp
  · next =>
    injection hdp with h4
    rw [← h4]
    simp

/-- Every issue of a metric lives at the metric's base path or strictly
below it. -/
theorem metricCheck_shape {base : String} {m : Json} {r : Contribution}
    (hok : metricCheck base m = .ok r) :
    (∀ e ∈ r.1, ∃ suf, SlashPrefix suf ∧ e.path = base ++ suf) ∧
    (∀ w ∈ r.2, ∃ suf, SlashPrefix suf ∧ w.path = base ++ suf) := by
  obtain ⟨dpRes, hdp, hr1, hr2⟩ := metricCheck_decomp hok
  have hdpS := dpsRes_shape hdp
  constructor
  · intro e he
    rw [hr1] at he
    rcases List.mem_append.mp he with he | he
    · exact ⟨"", slashPrefix_empty, by
        rw [string_append_empty]
        exact mem_metricCardErrs he⟩
    · obtain ⟨k, suf, hh, hp⟩ := hdpS.1 e he
      exact ⟨"/" ++ (dtNameOf m ++ ("/dataPoints/" ++ (decStr k ++ suf))),
        slashPrefix_head (head?_append_of_head (by decide)),
        by rw [hp]; simp [String.append_assoc]⟩
  · intro w hw
    rw [hr2] at hw
    rcases List.mem_append.mp hw with hw | hw
    · obtain ⟨k, suf, hh, hp⟩ := hdpS.2 w hw
      exact ⟨"/" ++ (dtNameOf m ++ ("/dataPoints/" ++ (decStr k ++ suf))),
        slashPrefix_head (head?_append_of_head (by decide)),
        by rw [hp]; simp [String.append_assoc]⟩
    · exact ⟨"/sum", slashPrefix_head (by decide), mem_metricSumWarns hw⟩

theorem scopeMetricsCheck_shape {a b : ℕ} {sm : Json} {r : Contribution}
    (hok : scopeMetricsCheck a b sm = .ok r) :
    (∀ e ∈ r.1, ∃ c suf, SlashPrefix suf ∧ e.path = metricBase a b c ++ suf) ∧
    (∀ w ∈ r.2, ∃ c suf, SlashPrefix suf ∧ w.path = metricBase a b c ++ suf) := by
  unfold scopeMetricsCheck at hok
  simp only [bind] at hok
  obtain ⟨mv, _, hok2⟩ := bind_eq_ok hok
  split at hok2
  · next xs =>
    exact exForIdx_shape
      (fun e => ∃ c suf, SlashPrefix suf ∧ e.path = metricBase a b c ++ suf)
      (fun w => ∃ c suf, SlashPrefix suf ∧ w.path = metricBase a b c ++ suf)
      (fun i x r' _ hok' => by
        obtain ⟨h1, h2⟩ := metricCheck_shape hok'
        exact ⟨fun e he => by
            obtain ⟨suf, hs, hp⟩ := h1 e he
            exact ⟨i, suf, hs, hp⟩,
          fun w hw => by
            obtain ⟨suf, hs, hp⟩ := h2 w hw
            exact ⟨i, suf, hs, hp⟩⟩) hok2
  · next =>
    simp at hok2
    rw [← hok2]
    simp

theorem resourceMetricsCheck_shape {a : ℕ} {rm : Json} {r : Contribution}
    (hok : resourceMetricsCheck a rm = .ok r) :
    (∀ e ∈ r.1, ∃ b c suf, SlashPrefix suf ∧ e.path = metricBase a b c ++ suf) ∧
    (∀ w ∈ r.2, ∃ b c suf, SlashPrefix suf ∧ w.path = metricBase a b c ++ suf) := by
  unfold resourceMetricsCheck at hok
  simp only [bind] at hok
  obtain ⟨sv, _, hok2⟩ := bind_eq_ok hok
  split at hok2
  · next xs =>
    exact exForIdx_shape
      (fun e => ∃ b c suf, SlashPrefix suf ∧ e.path = metricBase a b c ++ suf)
      (fun w => ∃ b c suf, SlashPrefix suf ∧ w.path = metricBase a b c ++ suf)
      (fun i x r' _ hok' => by
        obtain ⟨h1, h2⟩ := scopeMetricsCheck_shape hok'
        exact ⟨fun e he => by
            obtain ⟨c, suf, hs, hp⟩ := h1 e he
            exact ⟨i, c, suf, hs, hp⟩,
          fun w hw => by
            obtain ⟨c, suf, hs, hp⟩ := h2 w hw
            exact ⟨i, c, suf, hs, hp⟩⟩) hok2
  · next =>
    simp at hok2
    rw [← hok2]
    simp

theorem metricBase_inj {a b c a' b' c' : ℕ} {s s' : String}
    (hs : SlashPrefix s) (hs' : SlashPrefix s')
    (h : metricBase a b c ++ s = metricBase a' b' c' ++ s') :
    a = a' ∧ b = b' ∧ c = c' ∧ s = s' := by
  simp only [metricBase] at h
  exact idxPath3_peel (by decide) (by decide) hs hs' h

/-- Focusing the metrics traversal on one metric: counting issues whose
path is the metric's base path followed by a slash-prefixed suffix (and
satisfying any further predicate) reduces to counting within that
metric's own contribution. -/
theorem metrics_focus (p : Json) (a b c : ℕ)
    {rms sms ms : List Json} {rm sm metric : Json}
    (hp : p.getProp "resourceMetrics" = some (.arr rms))
    (ha : rms[a]? = some rm)
    (hb : rm.getProp "scopeMetrics" = some (.arr sms))
    (hc : sms[b]? = some sm)
    (hd2 : sm.getProp "metrics" = some (.arr ms))
    (he2 : ms[c]? = some metric)
    {res : SemResult} (hres : validateMetricSemantics p = .ok res)
    {suf0 : String} (hsuf : SlashPrefix suf0) (q : VError → Bool) (qw : VWarning → Bool) :
    ∃ mRes, metricCheck (metricBase a b c) metric = .ok mRes ∧
      res.errors.countP (fun e => e.path == metricBase a b c ++ suf0 && q e) =
        mRes.1.countP (fun e => e.path == metricBase a b c ++ suf0 && q e) ∧
      res.warnings.countP (fun w => w.path == metricBase a b c ++ suf0 && qw w) =
        mRes.2.countP (fun w => w.path == metricBase a b c ++ suf0 && qw w) := by
  have hpn := getProp_some_not_null hp
  unfold validateMetricSemantics at hres
  simp only [bind, jsGet_ok _ hpn, exceptBind_ok] at hres
  rw [hp] at hres
  obtain ⟨r0, hex, hres2⟩ := bind_eq_ok hres
  injection hres2 with hres3
  obtain ⟨ra, hra⟩ := exForIdx_ok_at hex ha
  simp only [Nat.zero_add] at hra
  have hra2 := hra
  unfold resourceMetricsCheck at hra2
  simp only [bind, jsGet_ok _ (getProp_some_not_null hb), exceptBind_ok] at hra2
  rw [hb] at hra2
  obtain ⟨rb, hrb⟩ := exForIdx_ok_at hra2 hc
  simp only [Nat.zero_add] at hrb
  have hrb2 := hrb
  unfold scopeMetricsCheck at hrb2
  simp only [bind, jsGet_ok _ (getProp_some_not_null hd2), exceptBind_ok] at hrb2
  rw [hd2] at hrb2
  obtain ⟨rc, hrc⟩ := exForIdx_ok_at hrb2 he2
  simp only [Nat.zero_add] at hrc
  rw [metricAt] at hrc
  refine ⟨rc, hrc, ?_, ?_⟩
  · rw [← hres3]
    show r0.1.countP _ = _
    rw [exForIdx_errors_countP hex,
      enumFrom_map_sum_single ha 0 (fun k y hk hkne => by
        unfold errCount
        cases hky : resourceMetricsCheck (0 + k) y with
        | error e => rfl
        | ok ry =>
          apply List.countP_eq_zero.mpr
          intro e he
          obtain ⟨b', c', suf, hsl, hpath⟩ := (resourceMetricsCheck_shape hky).1 e he
          simp only [Bool.and_eq_true, beq_iff_eq]
          rintro ⟨heq, -⟩
          rw [hpath] at heq
          have hk0 : 0 + k = k := Nat.zero_add k
          rw [hk0] at heq
          exact hkne (metricBase_inj hsl hsuf heq).1)]
    unfold errCount
    simp only [Nat.zero_add]
    rw [hra]
    show ra.1.countP _ = _
    rw [exForIdx_errors_countP hra2,
      enumFrom_map_sum_single hc 0 (fun k y hk hkne => by
        unfold errCount
        cases hky : scopeMetricsCheck a (0 + k) y with
        | error e => rfl
        | ok ry =>
          apply List.countP_eq_zero.mpr
          intro e he
          obtain ⟨c', suf, hsl, hpath⟩ := (scopeMetricsCheck_shape hky).1 e he
          simp only [Bool.and_eq_true, beq_iff_eq]
          rintro ⟨heq, -⟩
          rw [hpath] at heq
          have hk0 : 0 + k = k := Nat.zero_add k
          rw [hk0] at heq
          exact hkne (metricBase_inj hsl hsuf heq).2.1)]
    unfold errCount
    simp only [Nat.zero_add]
    rw [hrb]
    show rb.1.countP _ = _
    rw [exForIdx_errors_countP hrb2,
      enumFrom_map_sum_single he2 0 (fun k y hk hkne => by
        unfold errCount
        cases hky : metricAt a b (0 + k) y with
        | error e => rfl
        | ok ry =>
          apply List.countP_eq_zero.mpr
          intro e he
          obtain ⟨suf, hsl, hpath⟩ := (metricCheck_shape hky).1 e he
          simp only [Bool.and_eq_true, beq_iff_eq]
          rintro ⟨heq, -⟩
          rw [hpath] at heq
          have hk0 : 0 + k = k := Nat.zero_add k
          rw [hk0] at heq
          exact hkne (metricBase_inj hsl hsuf heq).2.2.1)]
    unfold errCount
    simp only [Nat.zero_add]
    rw [metricAt, hrc]
  · rw [← hres3]
    show r0.2.countP _ = _
    rw [exForIdx_warnings_countP hex,
      enumFrom_map_sum_single ha 0 (fun k y hk hkne => by
        unfold warnCount
        cases hky : resourceMetricsCheck (0 + k) y with
        | error e => rfl
        | ok ry =>
          apply List.countP_eq_zero.mpr
          intro w hw
          obtain ⟨b', c', suf, hsl, hpath⟩ := (resourceMetricsCheck_shape hky).2 w hw
          simp only [Bool.and_eq_true, beq_iff_eq]
          rintro ⟨heq, -⟩
          rw [hpath] at heq
          have hk0 : 0 + k = k := Nat.zero_add k
          rw [hk0] at heq
          exact hkne (metricBase_inj hsl hsuf heq).1)]
    unfold warnCount
    simp only [Nat.zero_add]
    rw [hra]
    show ra.2.countP _ = _
    rw [exForIdx_warnings_countP hra2,
      enumFrom_map_sum_single hc 0 (fun k y hk hkne => by
        unfold warnCount
        cases hky : scopeMetricsCheck a (0 + k) y with
        | error e => rfl
        | ok ry =>
          apply List.countP_eq_zero.mpr
          intro w hw
          obtain ⟨c', suf, hsl, hpath⟩ := (scopeMetricsCheck_shape hky).2 w hw
          simp only [Bool.and_eq_true, beq_iff_eq]
          rintro ⟨heq, -⟩
          rw [hpath] at heq
          have hk0 : 0 + k = k := Nat.zero_add k
          rw [hk0] at heq
          exact hkne (metricBase_inj hsl hsuf heq).2.1)]
    unfold warnCount
    simp only [Nat.zero_add]
    rw [hrb]
    show rb.2.countP _ = _
    rw [exForIdx_warnings_countP hrb2,
      enumFrom_map_sum_single he2 0 (fun k y hk hkne => by
        unfold warnCount
        cases hky : metricAt a b (0 + k) y with
        | error e => rfl
        | ok ry =>
          apply List.countP_eq_zero.mpr
          intro w hw
          obtain ⟨suf, hsl, hpath⟩ := (metricCheck_shape hky).2 w hw
          simp only [Bool.and_eq_true, beq_iff_eq]
          rintro ⟨heq, -⟩
          rw [hpath] at heq
          have hk0 : 0 + k = k := Nat.zero_add k
          rw [hk0] at heq
          exact hkne (metricBase_inj hsl hsuf heq).2.2.1)]
    unfold warnCount
    simp only [Nat.zero_add]
    rw [metricAt, hrc]

/-- Errors of one metric sitting exactly at the metric's base path are
exactly the variant-cardinality errors. -/
theorem metricCheck_count_base {base : String} {m : Json} {rc : Contribution}
    (q : VError → Bool) (hok : metricCheck base m = .ok rc) :
    rc.1.countP (fun e => e.path == base && q e) =
      (metricCardErrs base (presentTypesOf m)).countP (fun e => e.path == base && q e) := by
  obtain ⟨dpRes, hdp, hr1, _⟩ := metricCheck_decomp hok
  rw [hr1, List.countP_append]
  have h0 : dpRes.1.countP (fun e => e.path == base && q e) = 0 := by
    apply List.countP_eq_zero.mpr
    intro e he
    obtain ⟨k, suf, hh, hp⟩ := (dpsRes_shape hdp).1 e he
    simp only [Bool.and_eq_true, beq_iff_eq]
    rintro ⟨heq, -⟩
    rw [hp] at heq
    have heq2 : base ++ ("/" ++ (dtNameOf m ++ ("/dataPoints/" ++ (decStr k ++ suf)))) = base := by
      simpa [String.append_assoc] using heq
    exact absurd heq2.symm (string_ne_append_of_head (head?_append_of_head (by decide)))
  rw [h0]
  omega

/-- C5: for every metric in a metrics payload, a missing data-type
variant yields exactly one error at the metric's path carrying the
exactly-one-data-type message; more than one present variant yields
exactly one error at the metric's path whose message enumerates every
present variant; exactly one present variant yields no error at the
metric's path. -/
theorem claim_C5 (p : Json) (a b c : ℕ)
    {rms sms ms : List Json} {rm sm metric : Json}
    (hp : p.getProp "resourceMetrics" = some (.arr rms))
    (ha : rms[a]? = some rm)
    (hb : rm.getProp "scopeMetrics" = some (.arr sms))
    (hc : sms[b]? = some sm)
    (hd2 : sm.getProp "metrics" = some (.arr ms))
    (he2 : ms[c]? = some metric)
    {res : SemResult} (hres : validateMetricSemantics p = .ok res) :
    ((presentTypesOf metric).length = 0 →
      res.errors.countP (fun e => e.path == metricBase a b c &&
        e.message == "Metric must have exactly one data type (gauge, sum, histogram, exponentialHistogram, or summary)") = 1 ∧
      res.errors.countP (fun e => e.path == metricBase a b c) = 1) ∧
    ((presentTypesOf metric).length > 1 →
      res.errors.countP (fun e => e.path == metricBase a b c &&
        e.message == "Metric has multiple data types: " ++
          String.intercalate ", " (presentTypesOf metric) ++ ". Only one is allowed.") = 1 ∧
      res.errors.countP (fun e => e.path == metricBase a b c) = 1) ∧
    ((presentTypesOf metric).length = 1 →
      res.errors.countP (fun e => e.path == metricBase a b c) = 0) := by
  have hbase : metricBase a b c ++ "" = metricBase a b c := string_append_empty _
  obtain ⟨mRes, hrc, hce0, -⟩ :=
    metrics_focus p a b c hp ha hb hc hd2 he2 hres slashPrefix_empty
      (fun e => e.message == "Metric must have exactly one data type (gauge, sum, histogram, exponentialHistogram, or summary)")
      (fun _ => true)
  obtain ⟨mRes1, hrc1, hce1, -⟩ :=
    metrics_focus p a b c hp ha hb hc hd2 he2 hres slashPrefix_empty
      (fun e => e.message == "Metric has multiple data types: " ++
        String.intercalate ", " (presentTypesOf metric) ++ ". Only one is allowed.")
      (fun _ => true)
  obtain ⟨mRes2, hrc2, hce2, -⟩ :=
    metrics_focus p a b c hp ha hb hc hd2 he2 hres slashPrefix_empty
      (fun _ => true) (fun _ => true)
  have hm1 : mRes1 = mRes := by
    injection hrc1.symm.trans hrc
  have hm2 : mRes2 = mRes := by
    injection hrc2.symm.trans hrc
  rw [hbase] at hce0 hce1 hce2
  rw [hm1] at hce1
  rw [hm2] at hce2
  rw [countP_and_true, countP_and_true] at hce2
  refine ⟨fun hlen => ⟨?_, ?_⟩, fun hlen => ⟨?_, ?_⟩, fun hlen => ?_⟩
  · rw [hce0, metricCheck_count_base _ hrc, List.length_eq_zero.mp hlen]
    simp [metricCardErrs, List.countP_cons]
  · rw [hce2, ← countP_and_true, metricCheck_count_base (fun _ => true) hrc,
      List.length_eq_zero.mp hlen]
    simp [metricCardErrs, List.countP_cons]
  · rw [hce1, metricCheck_count_base _ hrc]
    unfold metricCardErrs
    rw [if_neg (by omega), if_pos hlen]
    simp [List.countP_cons]
  · rw [hce2, ← countP_and_true, metricCheck_count_base (fun _ => true) hrc]
    unfold metricCardErrs
    rw [if_neg (by omega), if_pos hlen]
    simp [List.countP_cons]
  · rw [hce2, ← countP_and_true, metricCheck_count_base (fun _ => true) hrc]
    unfold metricCardErrs
    rw [if_neg (by omega), if_neg (by omega)]
    rfl

/-- Witness for C5 at a metric carrying both `gauge` and `sum`. -/
theorem claim_C5_witness :
    ((presentTypesOf (Json.obj [("gauge", Json.obj []), ("sum", Json.obj [])])).length = 0 →
      (SemResult.errors ⟨[⟨metricBase 0 0 0,
          "Metric has multiple data types: gauge, sum. Only one is allowed.",
          "semantic", "#/$defs/metric"⟩], []⟩).countP
        (fun e => e.path == metricBase 0 0 0 &&
          e.message == "Metric must have exactly one data type (gauge, sum, histogram, exponentialHistogram, or summary)") = 1 ∧
      (SemResult.errors ⟨[⟨metricBase 0 0 0,
          "Metric has multiple data types: gauge, sum. Only one is allowed.",
          "semantic", "#/$defs/metric"⟩], []⟩).countP
        (fun e => e.path == metricBase 0 0 0) = 1) ∧
    ((presentTypesOf (Json.obj [("gauge", Json.obj []), ("sum", Json.obj [])])).length > 1 →
      (SemResult.errors ⟨[⟨metricBase 0 0 0,
          "Metric has multiple data types: gauge, sum. Only one is allowed.",
          "semantic", "#/$defs/metric"⟩], []⟩).countP
        (fun e => e.path == metricBase 0 0 0 &&
          e.message == "Metric has multiple data types: " ++
            String.intercalate ", "
              (presentTypesOf (Json.obj [("gauge", Json.obj []), ("sum", Json.obj [])])) ++
            ". Only one is allowed.") = 1 ∧
      (SemResult.errors ⟨[⟨metricBase 0 0 0,
          "Metric has multiple data types: gauge, sum. Only one is allowed.",
          "semantic", "#/$defs/metric"⟩], []⟩).countP
        (fun e => e.path == metricBase 0 0 0) = 1) ∧
    ((presentTypesOf (Json.obj [("gauge", Json.obj []), ("sum", Json.obj [])])).length = 1 →
      (SemResult.errors ⟨[⟨metricBase 0 0 0,
          "Metric has multiple data types: gauge, sum. Only one is allowed.",
          "semantic", "#/$defs/metric"⟩], []⟩).countP
        (fun e => e.path == metricBase 0 0 0) = 0) :=
  claim_C5
    (.obj [("resourceMetrics", .arr [.obj [("scopeMetrics", .arr [.obj [("metrics", .arr
      [.obj [("gauge", Json.obj []), ("sum", Json.obj [])]])]])]])])
    0 0 0 rfl rfl rfl rfl rfl rfl rfl

/-- The `explicitBounds` loop stops at the semantically first violation:
if index `i` (counted in the whole array, the scanned tail starting at
absolute position `k + 1`) violates strict monotonicity and no earlier
scanned index does, the loop reports exactly `(i, bounds[i], bounds[i-1])`. -/
theorem monoFirst_of_first : ∀ (rest : List Json) (y0 : Json) (k i : ℕ) (yi yprev : Json),
    k + 1 ≤ i →
    (y0 :: rest)[i - k]? = some yi →
    (y0 :: rest)[i - k - 1]? = some yprev →
    jsLe yi yprev = true →
    (∀ j u v, k + 1 ≤ j → j < i → (y0 :: rest)[j - k]? = some u →
      (y0 :: rest)[j - k - 1]? = some v → jsLe u v = false) →
    monoFirst (k + 1) y0 rest = some (i, yi, yprev) := by
  intro rest
  induction rest with
  | nil =>
    intro y0 k i yi yprev hk hyi _ _ _
    have hlen : (y0 :: ([] : List Json)).length ≤ i - k := by
      simp
      omega
    rw [List.getElem?_eq_none hlen] at hyi
    simp at hyi
  | cons y1 rest2 ih =>
    intro y0 k i yi yprev hk hyi hyp2 hviol hfirst
    rw [monoFirst]
    by_cases hle : jsLe y1 y0 = true
    · rw [if_pos hle]
      by_cases hik : i = k + 1
      · subst hik
        have h1 : k + 1 - k = 1 := by omega
        rw [h1] at hyi
        have h0 : k + 1 - k - 1 = 0 := by omega
        rw [h0] at hyp2
        simp at hyi hyp2
        rw [hyi, hyp2]
      · exfalso
        have hlt : k + 1 < i := by omega
        have hz := hfirst (k + 1) y1 y0 (Nat.le_refl _) hlt
          (by
            have h1 : k + 1 - k = 1 := by omega
            rw [h1]
            simp)
          (by
            have h0 : k + 1 - k - 1 = 0 := by omega
            rw [h0]
            simp)
        rw [hz] at hle
        exact Bool.noConfusion hle
    · rw [if_neg hle]
      have hik : i ≠ k + 1 := by
        intro h
        subst h
        have h1 : k + 1 - k = 1 := by omega
        rw [h1] at hyi
        have h0 : k + 1 - k - 1 = 0 := by omega
        rw [h0] at hyp2
        simp at hyi hyp2
        rw [← hyi, ← hyp2] at hviol
        exact hle hviol
      have hk2 : k + 1 + 1 ≤ i := by omega
      apply ih y1 (k + 1) i yi yprev hk2
      · have hd : i - k = (i - (k + 1)) + 1 := by omega
        rw [hd] at hyi
        simpa using hyi
      · have hd : i - k - 1 = (i - (k + 1) - 1) + 1 := by omega
        rw [hd] at hyp2
        simpa using hyp2
      · exact hviol
      · intro j u v hj hji hu hv
        apply hfirst j u v (by omega) hji
        · have hd : j - k = (j - (k + 1)) + 1 := by omega
          rw [hd]
          simpa using hu
        · have hd : j - k - 1 = (j - (k + 1) - 1) + 1 := by omega
          rw [hd]
          simpa using hv

/-- Peeling one decimal index off two paths sharing a prefix. -/
theorem idxPath1_peel {P : String} {k d : ℕ} {s s2 : String}
    (hs : SlashPrefix s) (hs2 : SlashPrefix s2)
    (h : P ++ decStr k ++ s = P ++ decStr d ++ s2) : k = d ∧ s = s2 := by
  have hd : P.data ++ ((decStr k).data ++ s.data) = P.data ++ ((decStr d).data ++ s2.data) := by
    have := congrArg String.data h
    simpa [String.data_append, List.append_assoc] using this
  have h1 := List.append_cancel_left hd
  obtain ⟨hk, h2⟩ := seg_peel (fun c hc => decStr_no_slash hc) (fun c hc => decStr_no_slash hc)
    (fun c hc => hs c hc) (fun c hc => hs2 c hc) h1
  exact ⟨decStr_inj (String.ext hk), String.ext h2⟩

/-- Focusing the data-points traversal on one data point. -/
theorem dps_focus {dt : Option String} {dtName base : String} {dps : List Json} {d : ℕ}
    {dp : Json} (hdp : dps[d]? = some dp) {dpRes : Contribution}
    (hex : exForIdx (dataPointAt dt dtName base) 0 dps = .ok dpRes)
    {suf1 : String} (hsuf : SlashPrefix suf1) :
    ∃ r, dataPointCheck dt (base ++ "/" ++ dtName ++ "/dataPoints/" ++ decStr d) dp = .ok r ∧
      dpRes.1.countP (fun e =>
          e.path == base ++ "/" ++ dtName ++ "/dataPoints/" ++ decStr d ++ suf1) =
        r.1.countP (fun e =>
          e.path == base ++ "/" ++ dtName ++ "/dataPoints/" ++ decStr d ++ suf1) := by
  obtain ⟨r, hr⟩ := exForIdx_ok_at hex hdp
  simp only [Nat.zero_add] at hr
  refine ⟨r, by rw [dataPointAt] at hr; exact hr, ?_⟩
  rw [exForIdx_errors_countP hex,
    enumFrom_map_sum_single hdp 0 (fun k y hk hkne => by
      unfold errCount
      cases hky : dataPointAt dt dtName base (0 + k) y with
      | error e => rfl
      | ok ry =>
        apply List.countP_eq_zero.mpr
        intro e he
        obtain ⟨suf, hh, hp⟩ := (dataPointCheck_shape hky).1 e he
        simp only [beq_iff_eq]
        intro heq
        rw [hp] at heq
        have hk0 : 0 + k = k := Nat.zero_add k
        rw [hk0] at heq
        exact hkne (idxPath1_peel (slashPrefix_head hh) hsuf heq).1)]
  unfold errCount
  simp only [Nat.zero_add]
  rw [hr]

/-- Focusing one metric's contribution on one of its data points. -/
theorem metricCheck_focus_dp {base : String} {metric : Json} {rc : Contribution}
    (hok : metricCheck base metric = .ok rc)
    {dps : List Json} (hdpv : dpvOf metric = some (.arr dps))
    {d : ℕ} {dp : Json} (hdp : dps[d]? = some dp)
    {suf1 : String} (hsuf : SlashPrefix suf1) :
    ∃ r, dataPointCheck (presentTypesOf metric).head?
        (base ++ "/" ++ dtNameOf metric ++ "/dataPoints/" ++ decStr d) dp = .ok r ∧
      rc.1.countP (fun e => e.path ==
          base ++ "/" ++ dtNameOf metric ++ "/dataPoints/" ++ decStr d ++ suf1) =
        r.1.countP (fun e => e.path ==
          base ++ "/" ++ dtNameOf metric ++ "/dataPoints/" ++ decStr d ++ suf1) := by
  obtain ⟨dpRes, hdpm, hr1, _⟩ := metricCheck_decomp hok
  rw [hdpv] at hdpm
  have hdpm2 : exForIdx (dataPointAt (presentTypesOf metric).head? (dtNameOf metric) base)
      0 dps = .ok dpRes := hdpm
  obtain ⟨r, hrr, hcount⟩ := dps_focus hdp hdpm2 hsuf
  refine ⟨r, hrr, ?_⟩
  rw [hr1, List.countP_append, hcount]
  have h0 : (metricCardErrs base (presentTypesOf metric)).countP (fun e => e.path ==
      base ++ "/" ++ dtNameOf metric ++ "/dataPoints/" ++ decStr d ++ suf1) = 0 := by
    apply countP_epath_zero
    intro e he
    rw [mem_metricCardErrs he]
    intro heq
    have heq2 : base = base ++
        ("/" ++ (dtNameOf metric ++ ("/dataPoints/" ++ (decStr d ++ suf1)))) := by
      simpa [String.append_assoc] using heq
    exact string_ne_append_of_head (head?_append_of_head (by decide)) heq2
  rw [h0]
  omega

/-- Exact per-index count of `explicitBounds` monotonicity errors of one
histogram data point whose bounds scan stops at `(i, yi, yprev)`. -/
theorem dataPointCheck_count_bounds {dpPath : String} {dp : Json} {r : Contribution}
    {y0 : Json} {rest : List Json} {i : ℕ} {yi yprev : Json}
    (heb : dp.getProp "explicitBounds" = some (.arr (y0 :: rest)))
    (hmf : monoFirst 1 y0 rest = some (i, yi, yprev))
    (hok : dataPointCheck (some "histogram") dpPath dp = .ok r) :
    ∀ j, r.1.countP (fun e => e.path == dpPath ++ "/explicitBounds/" ++ decStr j) =
      if j = i then 1 else 0 := by
  obtain ⟨exRes, hex, hr1, _⟩ := dataPointCheck_decomp hok
  intro j
  rw [hr1]
  simp only [List.countP_append]
  have h1 : (dpTimeErrs dpPath (dp.getProp "startTimeUnixNano")
      (dp.getProp "timeUnixNano")).countP
      (fun e => e.path == dpPath ++ "/explicitBounds/" ++ decStr j) = 0 :=
    countP_epath_zero (fun e he => by
      rw [mem_dpTimeErrs he, String.append_assoc]
      exact append_ne (string_ne_of_index (i := 1) (a := 't') (b := 'e')
        (by decide) (getElem_append_of_lt (by decide)) (by decide)))
  have h2 : (histErrsOf (some "histogram") dpPath dp).countP
      (fun e => e.path == dpPath ++ "/explicitBounds/" ++ decStr j) =
      if j = i then 1 else 0 := by
    unfold histErrsOf
    rw [if_pos rfl, List.countP_append]
    have h2a : (histBucketErrs dpPath (dp.getProp "bucketCounts")
        (dp.getProp "explicitBounds")).countP
        (fun e => e.path == dpPath ++ "/explicitBounds/" ++ decStr j) = 0 :=
      countP_epath_zero (fun e he => by
        rw [mem_histBucketErrs he, String.append_assoc]
        exact append_ne (string_ne_of_index (i := 1) (a := 'b') (b := 'e')
          (by decide) (getElem_append_of_lt (by decide)) (by decide)))
    have h2b : histMonoErrs dpPath (dp.getProp "explicitBounds") =
        [⟨dpPath ++ "/explicitBounds/" ++ decStr i,
          "explicitBounds must be strictly increasing (" ++ jsToStr yi ++ " <= " ++
            jsToStr yprev ++ ")",
          "semantic", "#/$defs/histogramDataPoint/properties/explicitBounds"⟩] := by
      rw [heb]
      simp only [histMonoErrs]
      rw [hmf]
    rw [h2a, h2b]
    by_cases hji : j = i
    · subst hji
      simp [List.countP_cons]
    · simp only [List.countP_cons, List.countP_nil]
      rw [if_neg hji]
      have hne : dpPath ++ "/explicitBounds/" ++ decStr i ≠
          dpPath ++ "/explicitBounds/" ++ decStr j :=
        append_ne (fun h => hji (decStr_inj h).symm)
      simp [hne]
  have h3 : exRes.1.countP
      (fun e => e.path == dpPath ++ "/explicitBounds/" ++ decStr j) = 0 := by
    rw [(exemplarsRes_shape hex).1]
    rfl
  rw [h1, h2, h3]
  omega

/-- C6: for every histogram data point (of a metric whose first present
variant is `histogram`) whose `explicitBounds` has a semantically first
strict-monotonicity violation at index `i ≥ 1` (`bounds[i] <= bounds[i-1]`
under the JS comparison, no earlier adjacent pair violating), the overall
result carries exactly one error at the data point's
`.../explicitBounds/i` path and none at `.../explicitBounds/j` for any
other index `j`: the loop stops after the first violation. -/
theorem claim_C6 (p : Json) (a b c d : ℕ)
    {rms sms ms dps : List Json} {rm sm metric dp : Json}
    {y0 : Json} {rest : List Json} {i : ℕ} {yi yprev : Json}
    (hp : p.getProp "resourceMetrics" = some (.arr rms))
    (ha : rms[a]? = some rm)
    (hb : rm.getProp "scopeMetrics" = some (.arr sms))
    (hc : sms[b]? = some sm)
    (hd2 : sm.getProp "metrics" = some (.arr ms))
    (he2 : ms[c]? = some metric)
    (hhead : (presentTypesOf metric).head? = some "histogram")
    (hdpv : dpvOf metric = some (.arr dps))
    (hdp : dps[d]? = some dp)
    (heb : dp.getProp "explicitBounds" = some (.arr (y0 :: rest)))
    (h1i : 1 ≤ i)
    (hyi : (y0 :: rest)[i]? = some yi)
    (hyp2 : (y0 :: rest)[i - 1]? = some yprev)
    (hviol : jsLe yi yprev = true)
    (hfirst : ∀ j u v, 1 ≤ j → j < i → (y0 :: rest)[j]? = some u →
      (y0 :: rest)[j - 1]? = some v → jsLe u v = false)
    {res : SemResult} (hres : validateMetricSemantics p = .ok res) :
    ∀ j, res.errors.countP (fun e => e.path == metricBase a b c ++ "/histogram/dataPoints/" ++
        decStr d ++ "/explicitBounds/" ++ decStr j) = if j = i then 1 else 0 := by
  have hdt : dtNameOf metric = "histogram" := by
    unfold dtNameOf
    rw [hhead]
  have hmf : monoFirst 1 y0 rest = some (i, yi, yprev) := by
    have hres0 := monoFirst_of_first rest y0 0 i yi yprev (by omega)
      (by simpa using hyi) (by simpa using hyp2) hviol
      (fun j u v hj hji hu hv =>
        hfirst j u v (by omega) hji (by simpa using hu) (by simpa using hv))
    simpa using hres0
  have hseg : ∀ X : String, ("/" : String) ++ ("histogram" ++ ("/dataPoints/" ++ X)) =
      "/histogram/dataPoints/" ++ X := fun X => by
    rw [← String.append_assoc, ← String.append_assoc]
    rfl
  intro j
  have hsuf0 : SlashPrefix ("/histogram/dataPoints/" ++ decStr d ++ "/explicitBounds/" ++
      decStr j) :=
    slashPrefix_head (head?_append_of_head (head?_append_of_head (head?_append_of_head
      (by decide))))
  obtain ⟨mRes, hrc, hce, -⟩ :=
    metrics_focus p a b c hp ha hb hc hd2 he2 hres hsuf0 (fun _ => true) (fun _ => true)
  rw [countP_and_true, countP_and_true] at hce
  have hT1 : metricBase a b c ++ ("/histogram/dataPoints/" ++ decStr d ++ "/explicitBounds/" ++
      decStr j) = metricBase a b c ++ "/histogram/dataPoints/" ++ decStr d ++
      "/explicitBounds/" ++ decStr j := by
    simp [String.append_assoc]
  rw [hT1] at hce
  rw [hce]
  obtain ⟨r, hr, hc2⟩ := metricCheck_focus_dp hrc hdpv hdp
    (show SlashPrefix ("/explicitBounds/" ++ decStr j) from
      slashPrefix_head (head?_append_of_head (by decide)))
  rw [hdt] at hc2 hr
  rw [hhead] at hr
  have hT2 : metricBase a b c ++ "/" ++ "histogram" ++ "/dataPoints/" ++ decStr d ++
      ("/explicitBounds/" ++ decStr j) = metricBase a b c ++ "/histogram/dataPoints/" ++
      decStr d ++ "/explicitBounds/" ++ decStr j := by
    simp only [String.append_assoc]
    rw [hseg]
  rw [hT2] at hc2
  rw [hc2]
  have hcnt := dataPointCheck_count_bounds heb hmf hr j
  have hT3 : metricBase a b c ++ "/" ++ "histogram" ++ "/dataPoints/" ++ decStr d ++
      "/explicitBounds/" ++ decStr j = metricBase a b c ++ "/histogram/dataPoints/" ++
      decStr d ++ "/explicitBounds/" ++ decStr j := by
    simp only [String.append_assoc]
    rw [hseg]
  rw [hT3] at hcnt
  exact hcnt

/-- Witness for C6 at `explicitBounds = [5, 3, 10]`: one error at index 1,
none at index 2 (also a violation relative to index 1, but not reported). -/
theorem claim_C6_witness :
    ((SemResult.errors ⟨[⟨metricBase 0 0 0 ++ "/" ++ "histogram" ++ "/dataPoints/" ++
        decStr 0 ++ "/explicitBounds/" ++ decStr 1,
        "explicitBounds must be strictly increasing (" ++ jsToStr (Json.num 3) ++ " <= " ++
          jsToStr (Json.num 5) ++ ")",
        "semantic", "#/$defs/histogramDataPoint/properties/explicitBounds"⟩], []⟩).countP
      (fun e => e.path == metricBase 0 0 0 ++ "/histogram/dataPoints/" ++
        decStr 0 ++ "/explicitBounds/" ++ decStr 1) = if 1 = 1 then 1 else 0) ∧
    ((SemResult.errors ⟨[⟨metricBase 0 0 0 ++ "/" ++ "histogram" ++ "/dataPoints/" ++
        decStr 0 ++ "/explicitBounds/" ++ decStr 1,
        "explicitBounds must be strictly increasing (" ++ jsToStr (Json.num 3) ++ " <= " ++
          jsToStr (Json.num 5) ++ ")",
        "semantic", "#/$defs/histogramDataPoint/properties/explicitBounds"⟩], []⟩).countP
      (fun e => e.path == metricBase 0 0 0 ++ "/histogram/dataPoints/" ++
        decStr 0 ++ "/explicitBounds/" ++ decStr 2) = if 2 = 1 then 1 else 0) :=
  ⟨claim_C6
    (.obj [("resourceMetrics", .arr [.obj [("scopeMetrics", .arr [.obj [("metrics", .arr
      [.obj [("histogram", .obj [("dataPoints", .arr
        [.obj [("explicitBounds", .arr [.num 5, .num 3, .num 10])]])])]])]])]])])
    0 0 0 0 rfl rfl rfl rfl rfl rfl rfl rfl rfl rfl (by decide) rfl rfl (by decide)
    (fun j u v h1 h2 _ _ => absurd (Nat.lt_of_le_of_lt h1 h2) (Nat.lt_irrefl 1))
    rfl 1,
   claim_C6
    (.obj [("resourceMetrics", .arr [.obj [("scopeMetrics", .arr [.obj [("metrics", .arr
      [.obj [("histogram", .obj [("dataPoints", .arr
        [.obj [("explicitBounds", .arr [.num 5, .num 3, .num 10])]])])]])]])]])])
    0 0 0 0 rfl rfl rfl rfl rfl rfl rfl rfl rfl rfl (by decide) rfl rfl (by decide)
    (fun j u v h1 h2 _ _ => absurd (Nat.lt_of_le_of_lt h1 h2) (Nat.lt_irrefl 1))
    rfl 2⟩

/-- Two slash-free segments followed by slash-prefixed (possibly empty)
tails are distinguishable by their segments. -/
theorem slash_seg_ne {w1 w2 : String} (hw1 : ∀ ch ∈ w1.data, ch ≠ '/')
    (hw2 : ∀ ch ∈ w2.data, ch ≠ '/') {r1 r2 : String}
    (hr1 : SlashPrefix r1) (hr2 : SlashPrefix r2) (hne : w1 ≠ w2) :
    w1 ++ r1 ≠ w2 ++ r2 := by
  intro h
  have hd := congrArg String.data h
  simp only [String.data_append] at hd
  exact hne (String.ext (seg_peel hw1 hw2 (fun c hc => hr1 c hc) (fun c hc => hr2 c hc) hd).1)

theorem mem_presentTypesOf {m : Json} {x : String} (hx : x ∈ presentTypesOf m) :
    x = "gauge" ∨ x = "sum" ∨ x = "histogram" ∨ x = "exponentialHistogram" ∨ x = "summary" := by
  unfold presentTypesOf at hx
  simp only [List.mem_append] at hx
  rcases hx with ((((hx | hx) | hx) | hx) | hx) <;> (split at hx <;> simp at hx) <;> tauto

/-- The per-metric body as a function of the data the code actually
consumes beyond the metric's own identity: the present-variant list and
the selected variant's value. -/
def metricCheckCore (base : String) (pts : List String) (md : Option Json) :
    Except String Contribution :=
  let cardErrs : List VError := metricCardErrs base pts
  let dataType : Option String := pts.head?
  let dpv : Option Json :=
    match md with
    | some .null => none
    | some md2 => md2.getProp "dataPoints"
    | none => none
  let dtName : String :=
    match dataType with
    | some dt => dt
    | none => "undefined"
  let dpPart : Except String Contribution :=
    match dpv with
    | some (Json.arr xs) => exForIdx (dataPointAt dataType dtName base) 0 xs
    | _ => .ok ([], [])
  Except.bind dpPart (fun dpRes =>
    .ok (cardErrs ++ dpRes.1, dpRes.2 ++ metricSumWarns base dataType md))

theorem metricCheck_eq_core (base : String) (m : Json) (hnn : m.isNull = false) :
    metricCheck base m = metricCheckCore base (presentTypesOf m) (metricDataOf m) := by
  unfold metricCheck metricCheckCore
  simp only [bind, jsGet_ok _ hnn, exceptBind_ok]
  rfl

/-- C10: (1) the per-metric body depends on the metric only through its
list of present variants and the value of the first present variant in
the fixed order gauge, sum, histogram, exponentialHistogram, summary —
so the data points of every other present variant are never examined;
(2) when the first present variant is not `sum`, no warning is ever
recorded at the metric's `.../sum` path (the monotonic-DELTA warning is
tied to `sum` being first). -/
theorem claim_C10 (base : String) (m m2 : Json) :
    (m.isNull = false → m2.isNull = false → presentTypesOf m = presentTypesOf m2 →
      metricDataOf m = metricDataOf m2 → metricCheck base m = metricCheck base m2) ∧
    (∀ rc : Contribution, metricCheck base m = .ok rc →
      (presentTypesOf m).head? ≠ some "sum" →
      rc.2.countP (fun w => w.path == base ++ "/sum") = 0) := by
  constructor
  · intro hnn hnn2 hpt hmd
    rw [metricCheck_eq_core base m hnn, metricCheck_eq_core base m2 hnn2, hpt, hmd]
  · intro rc hok hne
    obtain ⟨dpRes, hdpm, _, hr2⟩ := metricCheck_decomp hok
    rw [hr2, List.countP_append, metricSumWarns_ne_sum hne]
    have hdtn : dtNameOf m ≠ "sum" ∧ ∀ ch ∈ (dtNameOf m).data, ch ≠ '/' := by
      unfold dtNameOf
      cases hh2 : (presentTypesOf m).head? with
      | none =>
        exact ⟨by decide, by decide⟩
      | some dt =>
        show dt ≠ "sum" ∧ ∀ ch ∈ dt.data, ch ≠ '/'
        have hmem : dt ∈ presentTypesOf m := by
          cases hpt2 : presentTypesOf m with
          | nil =>
            rw [hpt2] at hh2
            simp at hh2
          | cons z zs =>
            rw [hpt2] at hh2
            simp at hh2
            subst hh2
            exact List.mem_cons_self _ _
        rcases mem_presentTypesOf hmem with h | h | h | h | h <;> subst h <;>
          first
            | exact absurd hh2 hne
            | exact ⟨by decide, by decide⟩
    obtain ⟨hnsum, hslash⟩ := hdtn
    have hdp0 : dpRes.2.countP (fun w => w.path == base ++ "/sum") = 0 := by
      apply countP_wpath_zero
      intro w hw
      obtain ⟨k, suf, hh, hp⟩ := (dpsRes_shape hdpm).2 w hw
      rw [hp]
      intro heq
      have heq2 : ("/" : String) ++ (dtNameOf m ++ ("/dataPoints/" ++ (decStr k ++ suf))) =
          "/sum" :=
        string_append_cancel (s := base) (by simpa [String.append_assoc] using heq)
      have heq3 : ("/" : String) ++ (dtNameOf m ++ ("/dataPoints/" ++ (decStr k ++ suf))) =
          "/" ++ ("sum" ++ "") := heq2
      have heq4 := string_append_cancel (s := ("/" : String)) heq3
      exact slash_seg_ne hslash (by decide)
        (slashPrefix_head (head?_append_of_head (by decide))) slashPrefix_empty hnsum heq4
    rw [hdp0]
    rfl

/-- Witness for C10: two metrics differing only in the content of `sum`
(the second present variant after `gauge`) validate identically, and the
gauge-first metric records no warning at `.../sum` despite its `sum`
variant being a monotonic-DELTA sum. -/
theorem claim_C10_witness :
    metricCheck "/m" (.obj [("gauge", .obj [("dataPoints", .arr [])]),
        ("sum", .obj [("isMonotonic", .bool true), ("aggregationTemporality", .num 1)])]) =
      metricCheck "/m" (.obj [("gauge", .obj [("dataPoints", .arr [])]),
        ("sum", .obj [])]) ∧
    (([⟨"/m", "Metric has multiple data types: gauge, sum. Only one is allowed.",
        "semantic", "#/$defs/metric"⟩], ([] : List VWarning)) : Contribution).2.countP
      (fun w => w.path == "/m" ++ "/sum") = 0 :=
  ⟨(claim_C10 "/m"
      (.obj [("gauge", .obj [("dataPoints", .arr [])]),
        ("sum", .obj [("isMonotonic", .bool true), ("aggregationTemporality", .num 1)])])
      (.obj [("gauge", .obj [("dataPoints", .arr [])]), ("sum", .obj [])])).1
      rfl rfl rfl rfl,
   (claim_C10 "/m"
      (.obj [("gauge", .obj [("dataPoints", .arr [])]),
        ("sum", .obj [("isMonotonic", .bool true), ("aggregationTemporality", .num 1)])])
      (.obj [("gauge", .obj [("dataPoints", .arr [])]), ("sum", .obj [])])).2
      ([⟨"/m", "Metric has multiple data types: gauge, sum. Only one is allowed.",
        "semantic", "#/$defs/metric"⟩], [])
      rfl (by decide)⟩

end OtelValidator
